import Mathlib

/-!
Shallow embedding of the transaction layer of the `mstun` STUN client
(`src/transactions/manager.rs`), together with proofs about it.

Modelling conventions:
* `Instant` and `Duration` are `Nat` (milliseconds on a monotonic clock);
  `SocketAddr` is an opaque `Nat` compared by equality only.
* The 96-bit random transaction id is an opaque `Nat` compared by equality.
* The tokio `oneshot::Sender` reply channel is modelled as an opaque sink
  identifier; resolving it is recorded as an emitted `Effect`.
* Channel sends (`egress_sink.send(..).await?`,
  `incoming_indications_sink.send(..).await?`) either succeed or fail with a
  closed channel; whether they succeed during one handler call is an oracle
  `Bool` argument (tokio mpsc sends fail exactly when the receiver is gone).
* `Instant::now()` calls within one handler invocation are modelled by a
  single `now : Nat` argument (instants and durations are `Nat` milliseconds).
* The `BinaryHeap<PendingTimeout>` is modelled as the multiset (list) of its
  elements; `peek`/`pop` return a greatest element under `PendingTimeout`'s
  `Ord`, which the source reverses so that the greatest element is the one
  with the least `timeout_at`.
* The `HashMap<TransactionId, Request>` is modelled as an association list
  with at most one binding per key.
* `unreachable!` is modelled as the distinguished outcome `StepResult.panicked`.
-/

namespace Mstun

/-- Modelled from the spec: `Tlv{attribute_type: 16-bit, value: bytes}`
(the wire codec is out of scope, so the numeric bounds are immaterial). -/
structure Tlv where
  attribute_type : Nat
  value : List Nat
deriving DecidableEq, Repr

/-- Modelled from the spec: the four STUN message classes. -/
inductive Class where
  | Request
  | Indication
  | Response
  | Error
deriving DecidableEq, Repr

/-- Modelled from the spec: message header `{class, method: 16-bit, tid: 96-bit}`. -/
structure Header where
  cls : Class
  method : Nat
  transaction_id : Nat
deriving DecidableEq, Repr

/-- Modelled from the spec: a message is a header plus an ordered list of TLV
attributes. -/
structure Message where
  header : Header
  attributes : List Tlv
deriving DecidableEq, Repr

/-- Modelled from the spec: constructor used for outgoing requests
(`Message::request(method, tid, attributes)`). -/
def Message.request (method : Nat) (tid : Nat) (attributes : List Tlv) : Message :=
  { header := { cls := Class.Request, method := method, transaction_id := tid }
    attributes := attributes }

/-- Modelled from the spec: constructor used for outgoing indications. -/
def Message.indication (method : Nat) (tid : Nat) (attributes : List Tlv) : Message :=
  { header := { cls := Class.Indication, method := method, transaction_id := tid }
    attributes := attributes }

/-- Modelled from the spec: the successful-reply value delivered to a caller:
`Success(attrs)` for a Response-class reply, `Error(attrs)` for an
Error-class reply. -/
inductive Response where
  | Success (attributes : List Tlv)
  | Error (attributes : List Tlv)
deriving DecidableEq, Repr

/-- Modelled from the spec: the error taxonomy surfaced via reply channels. -/
inductive TransactionError where
  | Timeout
  | MethodMismatch (request_method : Nat) (response_method : Nat)
  | ChannelClosed
deriving DecidableEq, Repr

/-- Modelled from the spec: `{peer_addr, method, attributes}` with no reply
semantics. -/
structure Indication where
  farend_addr : Nat
  method : Nat
  attributes : List Tlv
deriving DecidableEq, Repr

/-- An in-flight request (`struct Request` in `manager.rs`); `response_sink`
is the opaque identity of the oneshot reply channel. -/
structure Request where
  destination_addr : Nat
  method : Nat
  attributes : List Tlv
  response_sink : Nat
  attempts_made : Nat
  start_time : Nat
deriving DecidableEq, Repr

/-- `struct PendingTimeout` in `manager.rs`. -/
structure PendingTimeout where
  timeout_at : Nat
  tid : Nat
deriving DecidableEq, Repr

/-- The source's `Ord for PendingTimeout`: comparison of the `timeout_at`
fields, reversed so that the std max-`BinaryHeap` behaves as a min-heap. -/
def PendingTimeout.cmp (a b : PendingTimeout) : Ordering :=
  compare b.timeout_at a.timeout_at

/-- Modelled from the spec: the `RtoPolicy` contract's pure part,
`calculate_rto(dest, attempts_made, start_time) -> Option<Duration>`.
RTT samples (`submit_rtt`) are recorded as emitted effects instead of policy
state, so a policy is just its `calculate_rto` function here. -/
structure RtoPolicy where
  calculate_rto : Nat → Nat → Nat → Option Nat

/-- `const DEFAULT_RTO: Duration = Duration::from_millis(1500)`. -/
def DEFAULT_RTO : Nat := 1500

instance {ε α : Type} [DecidableEq ε] [DecidableEq α] :
    DecidableEq (Except ε α) := fun a b =>
  match a, b with
  | .ok x, .ok y =>
    if h : x = y then .isTrue (by rw [h]) else .isFalse (by simp [h])
  | .error x, .error y =>
    if h : x = y then .isTrue (by rw [h]) else .isFalse (by simp [h])
  | .ok _, .error _ => .isFalse (by simp)
  | .error _, .ok _ => .isFalse (by simp)

/-- Observable side effects of one handler invocation, in emission order.
`submitRtt` additionally records the transaction id of the message that
triggered the sample (ghost data: at the call site it is
`message.header.transaction_id`). -/
inductive Effect where
  | egress (msg : Message) (dest : Nat)
  | resolveSink (sink : Nat) (result : Except TransactionError Response)
  | submitRtt (tid : Nat) (addr : Nat) (elapsed : Nat)
  | forwardIndication (ind : Indication)
deriving DecidableEq, Repr

/-- Outcome of a handler invocation: `Ok(())`, `Err(e)`, or a `panic`
(the `unreachable!` in `handle_timeouts`). -/
inductive StepResult where
  | ok
  | err (e : TransactionError)
  | panicked
deriving DecidableEq, Repr

/-- The Manager's mutable state: the timer heap as a multiset and the
outstanding-request table as an association list keyed by transaction id. -/
structure ManagerState where
  pending_timeouts : List PendingTimeout
  outstanding_requests : List (Nat × Request)
deriving DecidableEq, Repr

/-- The empty initial Manager state (`Manager::new`). -/
def ManagerState.initial : ManagerState :=
  { pending_timeouts := [], outstanding_requests := [] }

/-- Association-list lookup modelling `HashMap::get`/`Entry::Occupied`. -/
def lookupReq : List (Nat × Request) → Nat → Option Request
  | [], _ => none
  | (k, v) :: rest, tid => if k = tid then some v else lookupReq rest tid

/-- Association-list key removal modelling `HashMap::remove` /
`OccupiedEntry::remove` (the removed value is obtained via `lookupReq`). -/
def eraseReq : List (Nat × Request) → Nat → List (Nat × Request)
  | [], _ => []
  | (k, v) :: rest, tid => if k = tid then rest else (k, v) :: eraseReq rest tid

/-- Association-list insertion modelling `HashMap::insert`. -/
def insertReq (m : List (Nat × Request)) (tid : Nat) (req : Request) :
    List (Nat × Request) :=
  (tid, req) :: eraseReq m tid

/-- In-place update of the entry for `tid`, modelling mutation through
`OccupiedEntry::get_mut`. -/
def modifyReq : List (Nat × Request) → Nat → (Request → Request) →
    List (Nat × Request)
  | [], _, _ => []
  | (k, v) :: rest, tid, f =>
    if k = tid then (k, f v) :: rest else (k, v) :: modifyReq rest tid f

/-- The keys of the outstanding-request table. -/
def reqKeys (m : List (Nat × Request)) : List Nat := m.map Prod.fst

/-- `BinaryHeap::peek` on the reversed order: a greatest element under
`PendingTimeout.cmp`, i.e. one with the least `timeout_at`. Ties are broken
by list position, which is immaterial to every property proved below. -/
def heapPeek : List PendingTimeout → Option PendingTimeout
  | [] => none
  | pt :: rest =>
    match heapPeek rest with
    | none => some pt
    | some m => if (PendingTimeout.cmp pt m).isGE then some pt else some m

/-- The heap minus one occurrence of a given element (the element obtained by
`BinaryHeap::peek_mut` and removed by `PeekMut::pop`). -/
def heapErase : List PendingTimeout → PendingTimeout → List PendingTimeout
  | [], _ => []
  | pt :: rest, x => if pt = x then rest else pt :: heapErase rest x

/-- `Manager::next_timeout`: `self.pending_timeouts.peek().map(|pt| pt.timeout_at)`. -/
def next_timeout (st : ManagerState) : Option Nat :=
  (heapPeek st.pending_timeouts).map PendingTimeout.timeout_at

/-- Result of one handler invocation: outcome, post-state, emitted effects. -/
structure HandlerOut where
  res : StepResult
  st : ManagerState
  effs : List Effect
deriving DecidableEq, Repr

/-- Result of `handle_timeouts`, additionally recording the deadlines of the
popped `PendingTimeout`s in pop order, and whether the loop exited through its
`break` (`completed = true`) as opposed to exhausting the modelling fuel. -/
structure TimeoutsOut where
  res : StepResult
  st : ManagerState
  effs : List Effect
  popped : List Nat
  completed : Bool
deriving DecidableEq, Repr

/-- `Manager::handle_timeouts`. One recursion step is one iteration of the
source's `loop`; `fuel` bounds the number of iterations (the Rust loop has no
such bound, so theorems either hold for every `fuel` or assume
`completed = true`). `egressOk` tells whether sends on `egress_sink` succeed
during this invocation. The `unreachable!("no request for pending timeout")`
arm produces `StepResult.panicked` (the state recorded with it is immaterial:
the process aborts). -/
def handle_timeouts (rto : RtoPolicy) (now : Nat) (egressOk : Bool) :
    Nat → ManagerState → TimeoutsOut
  | 0, st => ⟨StepResult.ok, st, [], [], false⟩
  | fuel + 1, st =>
    match heapPeek st.pending_timeouts with
    | none => ⟨StepResult.ok, st, [], [], true⟩
    | some pt =>
      if pt.timeout_at ≤ now then
        let rest := heapErase st.pending_timeouts pt
        match lookupReq st.outstanding_requests pt.tid with
        | none =>
          ⟨StepResult.panicked, { st with pending_timeouts := rest }, [],
            [pt.timeout_at], false⟩
        | some req =>
          match rto.calculate_rto req.destination_addr req.attempts_made
              req.start_time with
          | none =>
            let st1 : ManagerState :=
              { pending_timeouts := rest
                outstanding_requests := eraseReq st.outstanding_requests pt.tid }
            let o := handle_timeouts rto now egressOk fuel st1
            ⟨o.res, o.st,
              Effect.resolveSink req.response_sink (Except.error .Timeout) :: o.effs,
              pt.timeout_at :: o.popped, o.completed⟩
          | some next_rto =>
            if egressOk then
              let st1 : ManagerState :=
                { pending_timeouts := ⟨now + next_rto, pt.tid⟩ :: rest
                  outstanding_requests :=
                    modifyReq st.outstanding_requests pt.tid
                      (fun r => { r with attempts_made := r.attempts_made + 1 }) }
              let o := handle_timeouts rto now egressOk fuel st1
              ⟨o.res, o.st,
                Effect.egress (Message.request req.method pt.tid req.attributes)
                  req.destination_addr :: o.effs,
                pt.timeout_at :: o.popped, o.completed⟩
            else
              ⟨StepResult.err .ChannelClosed, { st with pending_timeouts := rest },
                [], [pt.timeout_at], false⟩
      else ⟨StepResult.ok, st, [], [], true⟩

/-- `Manager::handle_outgoing_indication`; `tid` is the randomly drawn
transaction id. -/
def handle_outgoing_indication (tid : Nat) (egressOk : Bool) (st : ManagerState)
    (indication : Indication) : HandlerOut :=
  if egressOk then
    ⟨StepResult.ok, st,
      [Effect.egress (Message.indication indication.method tid indication.attributes)
        indication.farend_addr]⟩
  else ⟨StepResult.err .ChannelClosed, st, []⟩

/-- `Manager::handle_outgoing_request`; `tid` is the randomly drawn
transaction id and `now` the value of `Nat::now()` after the send. -/
def handle_outgoing_request (rto : RtoPolicy) (tid : Nat) (now : Nat)
    (egressOk : Bool) (st : ManagerState) (request : Request) : HandlerOut :=
  let msg := Message.request request.method tid request.attributes
  if egressOk then
    let initial_rto :=
      (rto.calculate_rto request.destination_addr 0 now).getD DEFAULT_RTO
    ⟨StepResult.ok,
      { pending_timeouts := ⟨now + initial_rto, tid⟩ :: st.pending_timeouts
        outstanding_requests := insertReq st.outstanding_requests tid
          { request with attempts_made := 1, start_time := now } },
      [Effect.egress msg request.destination_addr]⟩
  else
    ⟨StepResult.err .ChannelClosed, st,
      [Effect.resolveSink request.response_sink (Except.error .ChannelClosed)]⟩

/-- `Manager::handle_incoming_message`. Note that in the Response/Error arm the
source calls `HashMap::remove` before inspecting the source address, so the
table entry is extracted (and, on the unexpected-source path, dropped) in every
`Some` case. -/
def handle_incoming_message (now : Nat) (indOk : Bool) (st : ManagerState)
    (message : Message) (source_addr : Nat) : HandlerOut :=
  match message.header.cls with
  | Class.Request => ⟨StepResult.ok, st, []⟩
  | Class.Indication =>
    if indOk then
      ⟨StepResult.ok, st,
        [Effect.forwardIndication
          ⟨source_addr, message.header.method, message.attributes⟩]⟩
    else ⟨StepResult.err .ChannelClosed, st, []⟩
  | Class.Response | Class.Error =>
    match lookupReq st.outstanding_requests message.header.transaction_id with
    | none => ⟨StepResult.ok, st, []⟩
    | some request =>
      let st1 : ManagerState :=
        { st with outstanding_requests :=
            eraseReq st.outstanding_requests message.header.transaction_id }
      if request.destination_addr = source_addr then
        let rttEffs : List Effect :=
          if request.attempts_made = 1 then
            [Effect.submitRtt message.header.transaction_id source_addr
              (now - request.start_time)]
          else []
        let result : Except TransactionError Response :=
          if request.method ≠ message.header.method then
            Except.error (.MethodMismatch request.method message.header.method)
          else
            match message.header.cls with
            | Class.Response => Except.ok (.Success message.attributes)
            | _ => Except.ok (.Error message.attributes)
        let pending2 := st1.pending_timeouts.filter
          (fun pt => pt.tid ≠ message.header.transaction_id)
        ⟨StepResult.ok, { st1 with pending_timeouts := pending2 },
          rttEffs ++ [Effect.resolveSink request.response_sink result]⟩
      else
        ⟨StepResult.ok, st1, []⟩

/-- One Manager input event, carrying the oracle data of its handler call
(random tid, clock reading, channel liveness, loop fuel). -/
inductive Event where
  | outRequest (tid : Nat) (now : Nat) (egressOk : Bool) (req : Request)
  | outIndication (tid : Nat) (egressOk : Bool) (ind : Indication)
  | inMessage (now : Nat) (indOk : Bool) (msg : Message) (src : Nat)
  | timeouts (now : Nat) (egressOk : Bool) (fuel : Nat)

/-- Dispatch of one event to the corresponding Manager handler. -/
def stepEvent (rto : RtoPolicy) (st : ManagerState) : Event → HandlerOut
  | .outRequest tid now egressOk req =>
    handle_outgoing_request rto tid now egressOk st req
  | .outIndication tid egressOk ind =>
    handle_outgoing_indication tid egressOk st ind
  | .inMessage now indOk msg src => handle_incoming_message now indOk st msg src
  | .timeouts now egressOk fuel =>
    let o := handle_timeouts rto now egressOk fuel st
    ⟨o.res, o.st, o.effs⟩

/-- Run of a sequence of events, accumulating all emitted effects. -/
def runEvents (rto : RtoPolicy) : ManagerState → List Event → ManagerState × List Effect
  | st, [] => (st, [])
  | st, e :: rest =>
    let o := stepEvent rto st e
    let r := runEvents rto o.st rest
    (r.1, o.effs ++ r.2)

/-- Transaction ids drawn by the `outRequest` events of a run. -/
def requestTids : List Event → List Nat
  | [] => []
  | .outRequest tid _ _ _ :: rest => tid :: requestTids rest
  | _ :: rest => requestTids rest

/-- Number of `submit_rtt` invocations attributed to transaction `tid`. -/
def countSubmitRtt (tid : Nat) (effs : List Effect) : Nat :=
  (effs.filter fun e =>
    match e with
    | .submitRtt t _ _ => t = tid
    | _ => false).length

/-- Number of egress emissions of request messages carrying `tid`. -/
def egressCountFor (tid : Nat) (effs : List Effect) : Nat :=
  (effs.filter fun e =>
    match e with
    | .egress msg _ => msg.header.transaction_id = tid
    | _ => false).length

/-- The reply-channel resolutions among a list of effects. -/
def sinkResolutions (effs : List Effect) : List Effect :=
  effs.filter fun e =>
    match e with
    | .resolveSink _ _ => true
    | _ => false

/-- The distinct transaction ids among the pending timeouts. -/
def distinctTids (l : List PendingTimeout) : List Nat :=
  (l.map PendingTimeout.tid).dedup

/-- Modelled from the spec: the reference policy
`NoRetransmissionsConstTimeout(d)` returns `Some(d)` iff `attempts_made == 0`,
else `None`; it ignores samples. -/
def NoRetransmissionsConstTimeout (d : Nat) : RtoPolicy :=
  ⟨fun _ attempts_made _ => if attempts_made = 0 then some d else none⟩

/-- A policy with a constant retransmission interval, for witnesses. -/
def constRto (d : Nat) : RtoPolicy := ⟨fun _ _ _ => some d⟩


/-- The `submit_rtt` invocations among a list of effects. -/
def submitRtts (effs : List Effect) : List Effect :=
  effs.filter fun e =>
    match e with
    | .submitRtt _ _ _ => true
    | _ => false

/-! ### Lemmas about the heap model -/

theorem cmp_isGE_iff (a b : PendingTimeout) :
    (PendingTimeout.cmp a b).isGE = true ↔ a.timeout_at ≤ b.timeout_at := by
  unfold PendingTimeout.cmp
  rcases Nat.lt_trichotomy b.timeout_at a.timeout_at with h | h | h
  · rw [Nat.compare_eq_lt.mpr h]
    constructor
    · intro hx
      simp [Ordering.isGE] at hx
    · intro hle
      exact absurd hle (by omega)
  · rw [h, Nat.compare_eq_eq.mpr rfl]
    exact ⟨fun _ => by omega, fun _ => rfl⟩
  · rw [Nat.compare_eq_gt.mpr h]
    exact ⟨fun _ => Nat.le_of_lt h, fun _ => rfl⟩

theorem heapPeek_cons (pt : PendingTimeout) (rest : List PendingTimeout) :
    ∃ m, heapPeek (pt :: rest) = some m := by
  simp only [heapPeek]
  cases heapPeek rest with
  | none => exact ⟨pt, rfl⟩
  | some m =>
    by_cases h : (PendingTimeout.cmp pt m).isGE = true
    · exact ⟨pt, by simp [h]⟩
    · exact ⟨m, by simp [h]⟩

theorem heapPeek_eq_none_iff (l : List PendingTimeout) :
    heapPeek l = none ↔ l = [] := by
  cases l with
  | nil => simp [heapPeek]
  | cons pt rest =>
    obtain ⟨m, hm⟩ := heapPeek_cons pt rest
    simp [hm]

theorem heapPeek_mem {l : List PendingTimeout} {pt : PendingTimeout}
    (h : heapPeek l = some pt) : pt ∈ l := by
  induction l with
  | nil => simp [heapPeek] at h
  | cons x rest ih =>
    simp only [heapPeek] at h
    split at h
    · simp only [Option.some.injEq] at h
      simp [← h]
    · rename_i m hm
      split at h <;> simp only [Option.some.injEq] at h
      · simp [← h]
      · subst h
        exact List.mem_cons_of_mem x (ih hm)

theorem heapPeek_le {l : List PendingTimeout} {pt : PendingTimeout}
    (h : heapPeek l = some pt) :
    ∀ x ∈ l, pt.timeout_at ≤ x.timeout_at := by
  induction l generalizing pt with
  | nil => simp [heapPeek] at h
  | cons x rest ih =>
    simp only [heapPeek] at h
    split at h
    · rename_i hnone
      have hre : rest = [] := (heapPeek_eq_none_iff rest).mp hnone
      subst hre
      simp only [Option.some.injEq] at h
      subst h
      simp
    · rename_i m hm
      have hmin := ih hm
      split at h <;> simp only [Option.some.injEq] at h
      · rename_i hc
        subst h
        have hxm : x.timeout_at ≤ m.timeout_at := (cmp_isGE_iff x m).mp hc
        intro y hy
        rcases List.mem_cons.mp hy with hxy | hyr
        · exact hxy ▸ le_refl _
        · exact le_trans hxm (hmin y hyr)
      · rename_i hc
        subst h
        have hxm : ¬ x.timeout_at ≤ m.timeout_at := fun hle =>
          hc ((cmp_isGE_iff x m).mpr hle)
        intro y hy
        rcases List.mem_cons.mp hy with hxy | hyr
        · subst hxy
          omega
        · exact hmin y hyr

theorem heapErase_subset {l : List PendingTimeout} {pt x : PendingTimeout}
    (h : x ∈ heapErase l pt) : x ∈ l := by
  induction l with
  | nil => simp [heapErase] at h
  | cons y rest ih =>
    simp only [heapErase] at h
    by_cases hy : y = pt
    · rw [if_pos hy] at h
      exact List.mem_cons_of_mem y h
    · rw [if_neg hy] at h
      rcases List.mem_cons.mp h with hxy | hxr
      · simp [hxy]
      · exact List.mem_cons_of_mem y (ih hxr)

/-! ### Lemmas about the association-list model of the outstanding table -/

theorem lookupReq_not_mem {m : List (Nat × Request)} {k : Nat}
    (h : k ∉ reqKeys m) : lookupReq m k = none := by
  induction m with
  | nil => rfl
  | cons p rest ih =>
    obtain ⟨a, v⟩ := p
    simp only [reqKeys, List.map_cons, List.mem_cons] at h
    push_neg at h
    have hak : ¬ a = k := fun hak => h.1 hak.symm
    simp only [lookupReq, if_neg hak]
    exact ih h.2

theorem lookupReq_mem {m : List (Nat × Request)} {k : Nat} {r : Request}
    (h : lookupReq m k = some r) : k ∈ reqKeys m := by
  by_contra hk
  rw [lookupReq_not_mem hk] at h
  exact Option.noConfusion h

theorem lookupReq_eraseReq_ne {m : List (Nat × Request)} {k k' : Nat}
    (h : k' ≠ k) : lookupReq (eraseReq m k) k' = lookupReq m k' := by
  induction m with
  | nil => rfl
  | cons p rest ih =>
    obtain ⟨a, v⟩ := p
    by_cases ha : a = k
    · have hak' : ¬ a = k' := by omega
      simp only [eraseReq, if_pos ha, lookupReq, if_neg hak']
    · simp only [eraseReq, if_neg ha, lookupReq]
      by_cases ha' : a = k'
      · simp [ha']
      · simp only [if_neg ha', ih]

theorem lookupReq_eraseReq_self {m : List (Nat × Request)} {k : Nat}
    (h : (reqKeys m).Nodup) : lookupReq (eraseReq m k) k = none := by
  induction m with
  | nil => rfl
  | cons p rest ih =>
    obtain ⟨a, v⟩ := p
    simp only [reqKeys, List.map_cons, List.nodup_cons] at h
    by_cases ha : a = k
    · simp only [eraseReq, if_pos ha]
      exact lookupReq_not_mem (ha ▸ h.1)
    · simp only [eraseReq, if_neg ha, lookupReq, if_neg ha]
      exact ih h.2

theorem lookupReq_eraseReq_some {m : List (Nat × Request)} {k k' : Nat}
    {r : Request} (hnd : (reqKeys m).Nodup)
    (h : lookupReq (eraseReq m k) k' = some r) :
    lookupReq m k' = some r ∧ k' ≠ k := by
  by_cases hk : k' = k
  · subst hk
    rw [lookupReq_eraseReq_self hnd] at h
    exact Option.noConfusion h
  · exact ⟨(lookupReq_eraseReq_ne hk) ▸ h, hk⟩

theorem reqKeys_eraseReq_sublist (m : List (Nat × Request)) (k : Nat) :
    (reqKeys (eraseReq m k)).Sublist (reqKeys m) := by
  induction m with
  | nil => simp [eraseReq, reqKeys]
  | cons p rest ih =>
    obtain ⟨a, v⟩ := p
    simp only [eraseReq]
    by_cases ha : a = k
    · rw [if_pos ha]
      exact List.sublist_cons_of_sublist a (List.Sublist.refl _)
    · rw [if_neg ha]
      exact List.Sublist.cons₂ a ih

theorem reqKeys_eraseReq_nodup {m : List (Nat × Request)} {k : Nat}
    (h : (reqKeys m).Nodup) : (reqKeys (eraseReq m k)).Nodup :=
  (reqKeys_eraseReq_sublist m k).nodup h

theorem lookupReq_modifyReq_self (m : List (Nat × Request)) (k : Nat)
    (f : Request → Request) :
    lookupReq (modifyReq m k f) k = (lookupReq m k).map f := by
  induction m with
  | nil => rfl
  | cons p rest ih =>
    obtain ⟨a, v⟩ := p
    by_cases ha : a = k
    · simp only [modifyReq, if_pos ha, lookupReq, if_pos ha]
      rfl
    · simp only [modifyReq, if_neg ha, lookupReq, if_neg ha]
      exact ih

theorem lookupReq_modifyReq_ne {m : List (Nat × Request)} {k k' : Nat}
    {f : Request → Request} (h : k' ≠ k) :
    lookupReq (modifyReq m k f) k' = lookupReq m k' := by
  induction m with
  | nil => rfl
  | cons p rest ih =>
    obtain ⟨a, v⟩ := p
    by_cases ha : a = k
    · have hak' : ¬ a = k' := by omega
      simp only [modifyReq, if_pos ha, lookupReq, if_neg hak']
    · simp only [modifyReq, if_neg ha, lookupReq]
      by_cases ha' : a = k'
      · simp [ha']
      · simp only [if_neg ha', ih]

theorem reqKeys_modifyReq (m : List (Nat × Request)) (k : Nat)
    (f : Request → Request) : reqKeys (modifyReq m k f) = reqKeys m := by
  induction m with
  | nil => rfl
  | cons p rest ih =>
    obtain ⟨a, v⟩ := p
    by_cases ha : a = k
    · simp only [modifyReq, if_pos ha, reqKeys, List.map_cons]
    · simp only [modifyReq, if_neg ha, reqKeys, List.map_cons] at ih ⊢
      rw [ih]


/-! ### C9: `next_timeout` yields the earliest deadline -/

/-- C9: `next_timeout()` returns `none` iff the timer heap is empty, and
otherwise returns `some` of the minimum `timeout_at` over all pending
timeouts — the reversed `Ord` on `PendingTimeout` makes the max-heap's peek
yield the earliest deadline. -/
theorem next_timeout_earliest (st : ManagerState) :
    (next_timeout st = none ↔ st.pending_timeouts = []) ∧
    (∀ t, next_timeout st = some t →
      (∃ pt ∈ st.pending_timeouts, pt.timeout_at = t) ∧
      ∀ pt ∈ st.pending_timeouts, t ≤ pt.timeout_at) := by
  constructor
  · constructor
    · intro h
      unfold next_timeout at h
      cases hp : heapPeek st.pending_timeouts with
      | none => exact (heapPeek_eq_none_iff _).mp hp
      | some m =>
        rw [hp] at h
        simp at h
    · intro h
      unfold next_timeout
      rw [(heapPeek_eq_none_iff _).mpr h]
      rfl
  · intro t ht
    unfold next_timeout at ht
    cases hp : heapPeek st.pending_timeouts with
    | none =>
      rw [hp] at ht
      simp at ht
    | some m =>
      rw [hp] at ht
      have hmt : m.timeout_at = t := by simpa using ht
      subst hmt
      exact ⟨⟨m, heapPeek_mem hp, rfl⟩, heapPeek_le hp⟩

/-- C9 witness: on the heap `[{5,1},{3,2}]` the peeked deadline `3` is carried
by a member and bounds every member from below. -/
theorem next_timeout_earliest_witness :
    (∃ pt ∈ [PendingTimeout.mk 5 1, PendingTimeout.mk 3 2], pt.timeout_at = 3) ∧
    ∀ pt ∈ [PendingTimeout.mk 5 1, PendingTimeout.mk 3 2], 3 ≤ pt.timeout_at :=
  (next_timeout_earliest
    { pending_timeouts := [PendingTimeout.mk 5 1, PendingTimeout.mk 3 2]
      outstanding_requests := [] }).2 3 rfl

/-! ### C5: initial send bookkeeping -/

/-- C5: when the outgoing request is successfully enqueued on the egress
channel, the Manager emits exactly the encoded request, sets
`start_time = now` and `attempts_made = 1` in the stored entry, inserts it
under the fresh tid, and pushes a pending timeout at `now` plus the initial
RTO — `calculate_rto(dest, 0, now)`, with `DEFAULT_RTO = 1500` ms substituted
when that call returns `None`. -/
theorem handle_outgoing_request_success (rto : RtoPolicy) (tid now : Nat)
    (st : ManagerState) (request : Request) :
    (handle_outgoing_request rto tid now true st request).res = StepResult.ok ∧
    (handle_outgoing_request rto tid now true st request).effs =
      [Effect.egress (Message.request request.method tid request.attributes)
        request.destination_addr] ∧
    lookupReq
      (handle_outgoing_request rto tid now true st request).st.outstanding_requests
      tid = some { request with attempts_made := 1, start_time := now } ∧
    (handle_outgoing_request rto tid now true st request).st.pending_timeouts =
      { timeout_at :=
          now + (rto.calculate_rto request.destination_addr 0 now).getD DEFAULT_RTO,
        tid := tid } :: st.pending_timeouts ∧
    DEFAULT_RTO = 1500 := by
  refine ⟨rfl, rfl, ?_, rfl, rfl⟩
  simp [handle_outgoing_request, insertReq, lookupReq]

/-! ### C8: requests and orphaned responses are absorbed without any change -/

/-- C8: an incoming Request-class message, or a Response/Error-class message
whose tid has no outstanding entry, leaves the Manager state untouched, emits
no effect (no reply channel, no RTT sample), and returns `Ok`. -/
theorem handle_incoming_message_absorbs (now : Nat) (indOk : Bool)
    (st : ManagerState) (message : Message) (source_addr : Nat)
    (h : message.header.cls = Class.Request ∨
      ((message.header.cls = Class.Response ∨ message.header.cls = Class.Error) ∧
        lookupReq st.outstanding_requests message.header.transaction_id = none)) :
    handle_incoming_message now indOk st message source_addr =
      ⟨StepResult.ok, st, []⟩ := by
  rcases h with h | ⟨hcls, hnone⟩
  · unfold handle_incoming_message
    rw [h]
  · rcases hcls with h | h <;>
      (unfold handle_incoming_message; rw [h]; simp only [hnone])


/-- C8 witness: an orphaned response against the empty Manager state is
absorbed: same state, no effects, `Ok`. -/
theorem handle_incoming_message_absorbs_witness :
    handle_incoming_message 0 true ManagerState.initial
      { header := { cls := Class.Response, method := 1, transaction_id := 9 },
        attributes := [] } 5 = ⟨StepResult.ok, ManagerState.initial, []⟩ :=
  handle_incoming_message_absorbs 0 true ManagerState.initial
    { header := { cls := Class.Response, method := 1, transaction_id := 9 },
      attributes := [] } 5 (Or.inr ⟨Or.inl rfl, rfl⟩)

/-! ### C6: matching responses resolve and fully retire the transaction -/

/-- C6: a Response- or Error-class message whose tid matches an outstanding
entry and whose source equals the stored destination removes the entry,
resolves its reply sink exactly once — with `MethodMismatch{stored, received}`
when methods differ, otherwise `Success(attrs)` for Response class and
`Error(attrs)` for Error class — and removes every pending timeout carrying
that tid. -/
theorem handle_incoming_message_match (now : Nat) (indOk : Bool)
    (st : ManagerState) (message : Message) (src : Nat) (req : Request)
    (hnd : (reqKeys st.outstanding_requests).Nodup)
    (hcls : message.header.cls = Class.Response ∨
      message.header.cls = Class.Error)
    (hreq : lookupReq st.outstanding_requests message.header.transaction_id =
      some req)
    (hsrc : req.destination_addr = src) :
    (handle_incoming_message now indOk st message src).res = StepResult.ok ∧
    lookupReq
      (handle_incoming_message now indOk st message src).st.outstanding_requests
      message.header.transaction_id = none ∧
    (handle_incoming_message now indOk st message src).st.pending_timeouts =
      st.pending_timeouts.filter
        (fun pt => pt.tid ≠ message.header.transaction_id) ∧
    sinkResolutions (handle_incoming_message now indOk st message src).effs =
      [Effect.resolveSink req.response_sink
        (if req.method ≠ message.header.method then
          Except.error
            (TransactionError.MethodMismatch req.method message.header.method)
        else if message.header.cls = Class.Response then
          Except.ok (Response.Success message.attributes)
        else
          Except.ok (Response.Error message.attributes))] := by
  refine ⟨?_, ?_, ?_, ?_⟩ <;>
    rcases hcls with h | h <;>
      by_cases hatt : req.attempts_made = 1 <;>
        simp [handle_incoming_message, h, hreq, hsrc, sinkResolutions,
          lookupReq_eraseReq_self hnd, hatt]

/-- C6 witness: a matching same-method Response retires the concrete
transaction 7 and resolves its sink with `Success`. -/
theorem handle_incoming_message_match_witness :
    (handle_incoming_message 5 true
      { pending_timeouts := [{ timeout_at := 100, tid := 7 }]
        outstanding_requests := [(7,
          { destination_addr := 1, method := 42, attributes := [],
            response_sink := 0, attempts_made := 1, start_time := 0 })] }
      { header := { cls := Class.Response, method := 42, transaction_id := 7 },
        attributes := [] } 1).res = StepResult.ok ∧
    lookupReq (handle_incoming_message 5 true
      { pending_timeouts := [{ timeout_at := 100, tid := 7 }]
        outstanding_requests := [(7,
          { destination_addr := 1, method := 42, attributes := [],
            response_sink := 0, attempts_made := 1, start_time := 0 })] }
      { header := { cls := Class.Response, method := 42, transaction_id := 7 },
        attributes := [] } 1).st.outstanding_requests 7 = none ∧
    (handle_incoming_message 5 true
      { pending_timeouts := [{ timeout_at := 100, tid := 7 }]
        outstanding_requests := [(7,
          { destination_addr := 1, method := 42, attributes := [],
            response_sink := 0, attempts_made := 1, start_time := 0 })] }
      { header := { cls := Class.Response, method := 42, transaction_id := 7 },
        attributes := [] } 1).st.pending_timeouts =
      [PendingTimeout.mk 100 7].filter (fun pt => pt.tid ≠ 7) ∧
    sinkResolutions (handle_incoming_message 5 true
      { pending_timeouts := [{ timeout_at := 100, tid := 7 }]
        outstanding_requests := [(7,
          { destination_addr := 1, method := 42, attributes := [],
            response_sink := 0, attempts_made := 1, start_time := 0 })] }
      { header := { cls := Class.Response, method := 42, transaction_id := 7 },
        attributes := [] } 1).effs =
      [Effect.resolveSink 0
        (if (42 : Nat) ≠ 42 then
          Except.error (TransactionError.MethodMismatch 42 42)
        else if Class.Response = Class.Response then
          Except.ok (Response.Success [])
        else Except.ok (Response.Error []))] :=
  handle_incoming_message_match 5 true _ _ 1
    { destination_addr := 1, method := 42, attributes := [],
      response_sink := 0, attempts_made := 1, start_time := 0 }
    (by decide) (Or.inl rfl) rfl rfl

/-! ### C1, C2, C3: the source-address-mismatch slip -/

/-- C1: evaluation of `handle_incoming_message` at the claim's failing input —
an outstanding request towards address 1 answered by a correctly-tid'd
response from address 2. The message is discarded (`Ok`, no effects), but
because the source calls `HashMap::remove` before the source-address guard,
the outstanding entry is gone (its sink is dropped with it) while the pending
timeout survives, contradicting the claim that both remain. -/
theorem source_mismatch_drops_entry :
    handle_incoming_message 5 true
      { pending_timeouts := [{ timeout_at := 100, tid := 7 }]
        outstanding_requests := [(7,
          { destination_addr := 1, method := 42, attributes := [],
            response_sink := 0, attempts_made := 1, start_time := 0 })] }
      { header := { cls := Class.Response, method := 42, transaction_id := 7 },
        attributes := [] } 2 =
    ⟨StepResult.ok,
      { pending_timeouts := [{ timeout_at := 100, tid := 7 }]
        outstanding_requests := [] },
      []⟩ := rfl

/-- C2: evaluation of a two-event run refuting the claimed invariant — after a
successful outgoing request (tid 7) followed by a correctly-tid'd response
from the wrong source address, the outstanding table is empty while one
pending timeout for tid 7 remains, so the two sizes differ in a state
reachable from the empty state by the handlers. -/
theorem invariant_breaks_after_source_mismatch :
    ((runEvents (NoRetransmissionsConstTimeout 100) ManagerState.initial
      [Event.outRequest 7 0 true
        { destination_addr := 1, method := 42, attributes := [],
          response_sink := 0, attempts_made := 0, start_time := 0 },
       Event.inMessage 5 true
        { header := { cls := Class.Response, method := 42, transaction_id := 7 },
          attributes := [] } 2]).1.outstanding_requests.length = 0) ∧
    ((distinctTids (runEvents (NoRetransmissionsConstTimeout 100)
      ManagerState.initial
      [Event.outRequest 7 0 true
        { destination_addr := 1, method := 42, attributes := [],
          response_sink := 0, attempts_made := 0, start_time := 0 },
       Event.inMessage 5 true
        { header := { cls := Class.Response, method := 42, transaction_id := 7 },
          attributes := [] } 2]).1.pending_timeouts).length = 1) :=
  ⟨rfl, rfl⟩

/-- C3: evaluation of a reachable state in which the `Vacant` branch fires —
after the two-event run of the source-address slip, the dangling pending
timeout for tid 7 expires and `handle_timeouts` hits
`unreachable!("no request for pending timeout")`. -/
theorem unreachable_branch_reachable :
    (handle_timeouts (NoRetransmissionsConstTimeout 100) 100 true 1
      (runEvents (NoRetransmissionsConstTimeout 100) ManagerState.initial
        [Event.outRequest 7 0 true
          { destination_addr := 1, method := 42, attributes := [],
            response_sink := 0, attempts_made := 0, start_time := 0 },
         Event.inMessage 5 true
          { header := { cls := Class.Response, method := 42, transaction_id := 7 },
            attributes := [] } 2]).1).res = StepResult.panicked := rfl


/-! ### C10: egress failure during retransmission is not atomic -/

theorem heapErase_filter_nil {l : List PendingTimeout} {pt : PendingTimeout}
    {p : PendingTimeout → Bool}
    (h : l.filter p = [pt]) : (heapErase l pt).filter p = [] := by
  induction l with
  | nil => simp [heapErase]
  | cons y rest ih =>
    by_cases hy : y = pt
    · subst hy
      by_cases hp : p y
      · rw [List.filter_cons_of_pos hp] at h
        simp only [List.cons.injEq] at h
        simp only [heapErase, if_pos rfl]
        exact h.2
      · rw [List.filter_cons_of_neg hp] at h
        have hmem : y ∈ rest.filter p := by
          rw [h]
          exact List.mem_singleton_self y
        have := List.of_mem_filter hmem
        contradiction
    · simp only [heapErase, if_neg hy]
      by_cases hp : p y
      · rw [List.filter_cons_of_pos hp] at h
        simp only [List.cons.injEq] at h
        exact absurd h.1 hy
      · rw [List.filter_cons_of_neg hp] at h
        rw [List.filter_cons_of_neg hp]
        exact ih h

/-- C10: if the egress channel is down when `handle_timeouts` retransmits the
expired earliest pending timeout, the handler stops with the channel error
mid-transition: the popped timeout is not re-pushed, the outstanding entry
stays with `attempts_made` not incremented, no effect is emitted (so the sink
is unresolved), and — when that tid had exactly one pending timeout — the
table/heap bijection (invariant 1) is broken in the state left behind. -/
theorem handle_timeouts_egress_failure (rto : RtoPolicy) (now fuel : Nat)
    (st : ManagerState) (pt : PendingTimeout) (req : Request) (r : Nat)
    (hpeek : heapPeek st.pending_timeouts = some pt)
    (hexp : pt.timeout_at ≤ now)
    (hreq : lookupReq st.outstanding_requests pt.tid = some req)
    (hrto : rto.calculate_rto req.destination_addr req.attempts_made
      req.start_time = some r) :
    (handle_timeouts rto now false (fuel + 1) st).res =
      StepResult.err TransactionError.ChannelClosed ∧
    (handle_timeouts rto now false (fuel + 1) st).st.outstanding_requests =
      st.outstanding_requests ∧
    (handle_timeouts rto now false (fuel + 1) st).st.pending_timeouts =
      heapErase st.pending_timeouts pt ∧
    (handle_timeouts rto now false (fuel + 1) st).effs = [] ∧
    (st.pending_timeouts.filter (fun x => x.tid = pt.tid) = [pt] →
      ((handle_timeouts rto now false (fuel + 1) st).st.pending_timeouts.filter
        (fun x => x.tid = pt.tid) = [] ∧
      lookupReq (handle_timeouts rto now false
        (fuel + 1) st).st.outstanding_requests pt.tid = some req)) := by
  have hred : handle_timeouts rto now false (fuel + 1) st =
      ⟨StepResult.err TransactionError.ChannelClosed,
        { st with pending_timeouts := heapErase st.pending_timeouts pt },
        [], [pt.timeout_at], false⟩ := by
    simp [handle_timeouts, hpeek, hexp, hreq, hrto]
  rw [hred]
  exact ⟨rfl, rfl, rfl, rfl, fun hone => ⟨heapErase_filter_nil hone, hreq⟩⟩

/-- C10 witness: with one outstanding request (tid 7, one attempt made) and
its expired timeout, a closed egress channel leaves the popped timeout gone,
the entry untouched, and nothing emitted. -/
theorem handle_timeouts_egress_failure_witness :
    (handle_timeouts (constRto 50) 10 false 1
      { pending_timeouts := [{ timeout_at := 10, tid := 7 }]
        outstanding_requests := [(7,
          { destination_addr := 1, method := 42, attributes := [],
            response_sink := 0, attempts_made := 1, start_time := 0 })] }).res =
      StepResult.err TransactionError.ChannelClosed ∧
    (handle_timeouts (constRto 50) 10 false 1
      { pending_timeouts := [{ timeout_at := 10, tid := 7 }]
        outstanding_requests := [(7,
          { destination_addr := 1, method := 42, attributes := [],
            response_sink := 0, attempts_made := 1, start_time := 0 })] }).st.outstanding_requests =
      [(7, { destination_addr := 1, method := 42, attributes := [],
             response_sink := 0, attempts_made := 1, start_time := 0 })] ∧
    (handle_timeouts (constRto 50) 10 false 1
      { pending_timeouts := [{ timeout_at := 10, tid := 7 }]
        outstanding_requests := [(7,
          { destination_addr := 1, method := 42, attributes := [],
            response_sink := 0, attempts_made := 1, start_time := 0 })] }).st.pending_timeouts =
      heapErase [{ timeout_at := 10, tid := 7 }] { timeout_at := 10, tid := 7 } ∧
    (handle_timeouts (constRto 50) 10 false 1
      { pending_timeouts := [{ timeout_at := 10, tid := 7 }]
        outstanding_requests := [(7,
          { destination_addr := 1, method := 42, attributes := [],
            response_sink := 0, attempts_made := 1, start_time := 0 })] }).effs = [] ∧
    (([{ timeout_at := 10, tid := 7 }] :
        List PendingTimeout).filter (fun x => x.tid = 7) =
        [{ timeout_at := 10, tid := 7 }] →
      ((handle_timeouts (constRto 50) 10 false 1
        { pending_timeouts := [{ timeout_at := 10, tid := 7 }]
          outstanding_requests := [(7,
            { destination_addr := 1, method := 42, attributes := [],
              response_sink := 0, attempts_made := 1, start_time := 0 })] }).st.pending_timeouts.filter
        (fun x => x.tid = 7) = [] ∧
      lookupReq (handle_timeouts (constRto 50) 10 false 1
        { pending_timeouts := [{ timeout_at := 10, tid := 7 }]
          outstanding_requests := [(7,
            { destination_addr := 1, method := 42, attributes := [],
              response_sink := 0, attempts_made := 1, start_time := 0 })] }).st.outstanding_requests 7 =
        some { destination_addr := 1, method := 42, attributes := [],
               response_sink := 0, attempts_made := 1, start_time := 0 })) :=
  handle_timeouts_egress_failure (constRto 50) 10 0
    { pending_timeouts := [{ timeout_at := 10, tid := 7 }]
      outstanding_requests := [(7,
        { destination_addr := 1, method := 42, attributes := [],
          response_sink := 0, attempts_made := 1, start_time := 0 })] }
    { timeout_at := 10, tid := 7 }
    { destination_addr := 1, method := 42, attributes := [],
      response_sink := 0, attempts_made := 1, start_time := 0 }
    50 rfl (by decide) rfl rfl


/-! ### Branch-wise unfolding of `handle_timeouts` -/

theorem ht_zero (rto : RtoPolicy) (now : Nat) (eg : Bool) (st : ManagerState) :
    handle_timeouts rto now eg 0 st = ⟨StepResult.ok, st, [], [], false⟩ := rfl

theorem ht_none (rto : RtoPolicy) (now : Nat) (eg : Bool) (fuel : Nat)
    (st : ManagerState) (h : heapPeek st.pending_timeouts = none) :
    handle_timeouts rto now eg (fuel + 1) st =
      ⟨StepResult.ok, st, [], [], true⟩ := by
  simp [handle_timeouts, h]

theorem ht_future (rto : RtoPolicy) (now : Nat) (eg : Bool) (fuel : Nat)
    (st : ManagerState) (pt : PendingTimeout)
    (hpeek : heapPeek st.pending_timeouts = some pt)
    (h : ¬ pt.timeout_at ≤ now) :
    handle_timeouts rto now eg (fuel + 1) st =
      ⟨StepResult.ok, st, [], [], true⟩ := by
  simp [handle_timeouts, hpeek, h]

theorem ht_panic (rto : RtoPolicy) (now : Nat) (eg : Bool) (fuel : Nat)
    (st : ManagerState) (pt : PendingTimeout)
    (hpeek : heapPeek st.pending_timeouts = some pt)
    (hexp : pt.timeout_at ≤ now)
    (hnone : lookupReq st.outstanding_requests pt.tid = none) :
    handle_timeouts rto now eg (fuel + 1) st =
      ⟨StepResult.panicked,
        { st with pending_timeouts := heapErase st.pending_timeouts pt },
        [], [pt.timeout_at], false⟩ := by
  simp [handle_timeouts, hpeek, hexp, hnone]

theorem ht_timeout (rto : RtoPolicy) (now : Nat) (eg : Bool) (fuel : Nat)
    (st : ManagerState) (pt : PendingTimeout) (req : Request)
    (hpeek : heapPeek st.pending_timeouts = some pt)
    (hexp : pt.timeout_at ≤ now)
    (hreq : lookupReq st.outstanding_requests pt.tid = some req)
    (hrto : rto.calculate_rto req.destination_addr req.attempts_made
      req.start_time = none) :
    handle_timeouts rto now eg (fuel + 1) st =
      ⟨(handle_timeouts rto now eg fuel
          ⟨heapErase st.pending_timeouts pt,
           eraseReq st.outstanding_requests pt.tid⟩).res,
       (handle_timeouts rto now eg fuel
          ⟨heapErase st.pending_timeouts pt,
           eraseReq st.outstanding_requests pt.tid⟩).st,
       Effect.resolveSink req.response_sink
           (Except.error TransactionError.Timeout) ::
         (handle_timeouts rto now eg fuel
            ⟨heapErase st.pending_timeouts pt,
             eraseReq st.outstanding_requests pt.tid⟩).effs,
       pt.timeout_at ::
         (handle_timeouts rto now eg fuel
            ⟨heapErase st.pending_timeouts pt,
             eraseReq st.outstanding_requests pt.tid⟩).popped,
       (handle_timeouts rto now eg fuel
          ⟨heapErase st.pending_timeouts pt,
           eraseReq st.outstanding_requests pt.tid⟩).completed⟩ := by
  simp [handle_timeouts, hpeek, hexp, hreq, hrto]

theorem ht_retransmit (rto : RtoPolicy) (now : Nat) (fuel : Nat)
    (st : ManagerState) (pt : PendingTimeout) (req : Request) (r : Nat)
    (hpeek : heapPeek st.pending_timeouts = some pt)
    (hexp : pt.timeout_at ≤ now)
    (hreq : lookupReq st.outstanding_requests pt.tid = some req)
    (hrto : rto.calculate_rto req.destination_addr req.attempts_made
      req.start_time = some r) :
    handle_timeouts rto now true (fuel + 1) st =
      ⟨(handle_timeouts rto now true fuel
          ⟨{ timeout_at := now + r, tid := pt.tid } ::
             heapErase st.pending_timeouts pt,
           modifyReq st.outstanding_requests pt.tid
             (fun q => { q with attempts_made := q.attempts_made + 1 })⟩).res,
       (handle_timeouts rto now true fuel
          ⟨{ timeout_at := now + r, tid := pt.tid } ::
             heapErase st.pending_timeouts pt,
           modifyReq st.outstanding_requests pt.tid
             (fun q => { q with attempts_made := q.attempts_made + 1 })⟩).st,
       Effect.egress (Message.request req.method pt.tid req.attributes)
           req.destination_addr ::
         (handle_timeouts rto now true fuel
            ⟨{ timeout_at := now + r, tid := pt.tid } ::
               heapErase st.pending_timeouts pt,
             modifyReq st.outstanding_requests pt.tid
               (fun q => { q with attempts_made := q.attempts_made + 1 })⟩).effs,
       pt.timeout_at ::
         (handle_timeouts rto now true fuel
            ⟨{ timeout_at := now + r, tid := pt.tid } ::
               heapErase st.pending_timeouts pt,
             modifyReq st.outstanding_requests pt.tid
               (fun q => { q with attempts_made := q.attempts_made + 1 })⟩).popped,
       (handle_timeouts rto now true fuel
          ⟨{ timeout_at := now + r, tid := pt.tid } ::
             heapErase st.pending_timeouts pt,
           modifyReq st.outstanding_requests pt.tid
             (fun q => { q with attempts_made := q.attempts_made + 1 })⟩).completed⟩ := by
  simp [handle_timeouts, hpeek, hexp, hreq, hrto]


theorem ht_fail (rto : RtoPolicy) (now : Nat) (fuel : Nat)
    (st : ManagerState) (pt : PendingTimeout) (req : Request) (r : Nat)
    (hpeek : heapPeek st.pending_timeouts = some pt)
    (hexp : pt.timeout_at ≤ now)
    (hreq : lookupReq st.outstanding_requests pt.tid = some req)
    (hrto : rto.calculate_rto req.destination_addr req.attempts_made
      req.start_time = some r) :
    handle_timeouts rto now false (fuel + 1) st =
      ⟨StepResult.err TransactionError.ChannelClosed,
        { st with pending_timeouts := heapErase st.pending_timeouts pt },
        [], [pt.timeout_at], false⟩ := by
  simp [handle_timeouts, hpeek, hexp, hreq, hrto]

/-! ### Properties of the deadlines popped by `handle_timeouts` -/

theorem ht_popped_le_now (rto : RtoPolicy) (now : Nat) (eg : Bool) :
    ∀ (fuel : Nat) (st : ManagerState),
      ∀ d ∈ (handle_timeouts rto now eg fuel st).popped, d ≤ now := by
  intro fuel
  induction fuel with
  | zero =>
    intro st d hd
    rw [ht_zero] at hd
    simp at hd
  | succ n ih =>
    intro st d hd
    rcases hpeek : heapPeek st.pending_timeouts with _ | pt
    · rw [ht_none rto now eg n st hpeek] at hd
      simp at hd
    · by_cases hexp : pt.timeout_at ≤ now
      · rcases hreq : lookupReq st.outstanding_requests pt.tid with _ | req
        · rw [ht_panic rto now eg n st pt hpeek hexp hreq] at hd
          simp at hd
          omega
        · rcases hrto : rto.calculate_rto req.destination_addr
            req.attempts_made req.start_time with _ | r
          · rw [ht_timeout rto now eg n st pt req hpeek hexp hreq hrto] at hd
            simp only [List.mem_cons] at hd
            rcases hd with rfl | hd
            · exact hexp
            · exact ih _ d hd
          · cases eg with
            | false =>
              rw [ht_fail rto now n st pt req r hpeek hexp hreq hrto] at hd
              simp at hd
              omega
            | true =>
              rw [ht_retransmit rto now n st pt req r hpeek hexp hreq hrto] at hd
              simp only [List.mem_cons] at hd
              rcases hd with rfl | hd
              · exact hexp
              · exact ih _ d hd
      · rw [ht_future rto now eg n st pt hpeek hexp] at hd
        simp at hd

theorem ht_popped_lb (rto : RtoPolicy) (now : Nat) (eg : Bool) :
    ∀ (fuel : Nat) (st : ManagerState) (b : Nat), b ≤ now →
      (∀ x ∈ st.pending_timeouts, b ≤ x.timeout_at) →
      ∀ d ∈ (handle_timeouts rto now eg fuel st).popped, b ≤ d := by
  intro fuel
  induction fuel with
  | zero =>
    intro st b _ _ d hd
    rw [ht_zero] at hd
    simp at hd
  | succ n ih =>
    intro st b hbn hlb d hd
    rcases hpeek : heapPeek st.pending_timeouts with _ | pt
    · rw [ht_none rto now eg n st hpeek] at hd
      simp at hd
    · by_cases hexp : pt.timeout_at ≤ now
      · have hbpt : b ≤ pt.timeout_at := hlb pt (heapPeek_mem hpeek)
        rcases hreq : lookupReq st.outstanding_requests pt.tid with _ | req
        · rw [ht_panic rto now eg n st pt hpeek hexp hreq] at hd
          simp at hd
          omega
        · rcases hrto : rto.calculate_rto req.destination_addr
            req.attempts_made req.start_time with _ | r
          · rw [ht_timeout rto now eg n st pt req hpeek hexp hreq hrto] at hd
            simp only [List.mem_cons] at hd
            rcases hd with rfl | hd
            · exact hbpt
            · refine ih _ b hbn ?_ d hd
              intro x hx
              exact hlb x (heapErase_subset hx)
          · cases eg with
            | false =>
              rw [ht_fail rto now n st pt req r hpeek hexp hreq hrto] at hd
              simp at hd
              omega
            | true =>
              rw [ht_retransmit rto now n st pt req r hpeek hexp hreq hrto] at hd
              simp only [List.mem_cons] at hd
              rcases hd with rfl | hd
              · exact hbpt
              · refine ih _ b hbn ?_ d hd
                intro x hx
                rcases List.mem_cons.mp hx with rfl | hx2
                · exact le_trans hbn (Nat.le_add_right now r)
                · exact hlb x (heapErase_subset hx2)
      · rw [ht_future rto now eg n st pt hpeek hexp] at hd
        simp at hd

theorem ht_popped_chain (rto : RtoPolicy) (now : Nat) (eg : Bool) :
    ∀ (fuel : Nat) (st : ManagerState),
      List.Chain' (fun a b => a ≤ b) (handle_timeouts rto now eg fuel st).popped := by
  intro fuel
  induction fuel with
  | zero =>
    intro st
    rw [ht_zero]
    simp
  | succ n ih =>
    intro st
    rcases hpeek : heapPeek st.pending_timeouts with _ | pt
    · rw [ht_none rto now eg n st hpeek]
      simp
    · by_cases hexp : pt.timeout_at ≤ now
      · rcases hreq : lookupReq st.outstanding_requests pt.tid with _ | req
        · rw [ht_panic rto now eg n st pt hpeek hexp hreq]
          simp
        · rcases hrto : rto.calculate_rto req.destination_addr
            req.attempts_made req.start_time with _ | r
          · rw [ht_timeout rto now eg n st pt req hpeek hexp hreq hrto]
            refine List.chain'_cons'.mpr ⟨?_, ih _⟩
            intro b hb
            have hbmem := List.mem_of_mem_head? hb
            refine ht_popped_lb rto now eg n _ pt.timeout_at hexp ?_ b hbmem
            intro x hx
            exact heapPeek_le hpeek x (heapErase_subset hx)
          · cases eg with
            | false =>
              rw [ht_fail rto now n st pt req r hpeek hexp hreq hrto]
              simp
            | true =>
              rw [ht_retransmit rto now n st pt req r hpeek hexp hreq hrto]
              refine List.chain'_cons'.mpr ⟨?_, ih _⟩
              intro b hb
              have hbmem := List.mem_of_mem_head? hb
              refine ht_popped_lb rto now true n _ pt.timeout_at hexp ?_ b hbmem
              intro x hx
              rcases List.mem_cons.mp hx with rfl | hx2
              · exact le_trans hexp (Nat.le_add_right now r)
              · exact heapPeek_le hpeek x (heapErase_subset hx2)
      · rw [ht_future rto now eg n st pt hpeek hexp]
        simp


theorem egressCountFor_nil (tid : Nat) : egressCountFor tid [] = 0 := rfl

theorem egressCountFor_cons_resolveSink (tid s : Nat)
    (rr : Except TransactionError Response) (effs : List Effect) :
    egressCountFor tid (Effect.resolveSink s rr :: effs) =
      egressCountFor tid effs := by
  simp [egressCountFor]

theorem egressCountFor_cons_egress (tid : Nat) (msg : Message) (dest : Nat)
    (effs : List Effect) :
    egressCountFor tid (Effect.egress msg dest :: effs) =
      (if msg.header.transaction_id = tid then 1 else 0) +
        egressCountFor tid effs := by
  by_cases h : msg.header.transaction_id = tid <;>
    simp [egressCountFor, h, List.filter_cons, Nat.add_comm]

/-! ### Simulation of one `handle_timeouts` call against its pre-state -/

theorem ht_sim (rto : RtoPolicy) (now : Nat) :
    ∀ (fuel : Nat) (st : ManagerState),
      (reqKeys st.outstanding_requests).Nodup →
      ((∀ msg dest,
          Effect.egress msg dest ∈ (handle_timeouts rto now true fuel st).effs →
          ∃ req0,
            lookupReq st.outstanding_requests msg.header.transaction_id =
              some req0 ∧
            msg = Message.request req0.method msg.header.transaction_id
              req0.attributes ∧
            dest = req0.destination_addr) ∧
       (∀ s rr,
          Effect.resolveSink s rr ∈ (handle_timeouts rto now true fuel st).effs →
          rr = Except.error TransactionError.Timeout ∧
          ∃ tid req0, lookupReq st.outstanding_requests tid = some req0 ∧
            s = req0.response_sink ∧
            lookupReq
              (handle_timeouts rto now true fuel st).st.outstanding_requests
              tid = none) ∧
       (∀ tid req1,
          lookupReq
            (handle_timeouts rto now true fuel st).st.outstanding_requests
            tid = some req1 →
          ∃ req0, lookupReq st.outstanding_requests tid = some req0 ∧
            req1.destination_addr = req0.destination_addr ∧
            req1.method = req0.method ∧
            req1.attributes = req0.attributes ∧
            req1.start_time = req0.start_time ∧
            req1.response_sink = req0.response_sink ∧
            req1.attempts_made = req0.attempts_made +
              egressCountFor tid (handle_timeouts rto now true fuel st).effs) ∧
       (∀ pt2 ∈ (handle_timeouts rto now true fuel st).st.pending_timeouts,
          pt2 ∈ st.pending_timeouts ∨
          ∃ req0 k r, lookupReq st.outstanding_requests pt2.tid = some req0 ∧
            rto.calculate_rto req0.destination_addr k req0.start_time =
              some r ∧
            pt2.timeout_at = now + r) ∧
       ((handle_timeouts rto now true fuel st).completed = true →
          ∀ pt2 ∈ (handle_timeouts rto now true fuel st).st.pending_timeouts,
            now < pt2.timeout_at)) := by
  intro fuel
  induction fuel with
  | zero =>
    intro st hnd
    rw [ht_zero]
    refine ⟨?_, ?_, ?_, ?_, ?_⟩
    · intro msg dest h
      simp at h
    · intro s rr h
      simp at h
    · intro tid req1 h
      exact ⟨req1, h, rfl, rfl, rfl, rfl, rfl, by simp [egressCountFor_nil]⟩
    · intro pt2 hpt
      exact Or.inl hpt
    · intro hc
      simp at hc
  | succ n ih =>
    intro st hnd
    rcases hpeek : heapPeek st.pending_timeouts with _ | pt
    · rw [ht_none rto now true n st hpeek]
      have hempty : st.pending_timeouts = [] := (heapPeek_eq_none_iff _).mp hpeek
      refine ⟨?_, ?_, ?_, ?_, ?_⟩
      · intro msg dest h
        simp at h
      · intro s rr h
        simp at h
      · intro tid req1 h
        exact ⟨req1, h, rfl, rfl, rfl, rfl, rfl, by simp [egressCountFor_nil]⟩
      · intro pt2 hpt
        exact Or.inl hpt
      · intro _ pt2 hpt
        rw [hempty] at hpt
        simp at hpt
    · by_cases hexp : pt.timeout_at ≤ now
      · rcases hreq : lookupReq st.outstanding_requests pt.tid with _ | req
        · rw [ht_panic rto now true n st pt hpeek hexp hreq]
          refine ⟨?_, ?_, ?_, ?_, ?_⟩
          · intro msg dest h
            simp at h
          · intro s rr h
            simp at h
          · intro tid req1 h
            exact ⟨req1, h, rfl, rfl, rfl, rfl, rfl, by simp [egressCountFor_nil]⟩
          · intro pt2 hpt
            exact Or.inl (heapErase_subset hpt)
          · intro hc
            simp at hc
        · rcases hrto : rto.calculate_rto req.destination_addr
            req.attempts_made req.start_time with _ | r
          · -- policy gave up: entry removed, sink resolved with Timeout
            rw [ht_timeout rto now true n st pt req hpeek hexp hreq hrto]
            have hnd1 : (reqKeys (eraseReq st.outstanding_requests pt.tid)).Nodup :=
              reqKeys_eraseReq_nodup hnd
            obtain ⟨ih2, ih3, ih4, ih5, ih6⟩ :=
              ih ⟨heapErase st.pending_timeouts pt,
                  eraseReq st.outstanding_requests pt.tid⟩ hnd1
            have hlift : ∀ tid q,
                lookupReq (eraseReq st.outstanding_requests pt.tid) tid =
                  some q →
                lookupReq st.outstanding_requests tid = some q :=
              fun tid q hq => (lookupReq_eraseReq_some hnd hq).1
            have hfinalnone :
                lookupReq (handle_timeouts rto now true n
                  ⟨heapErase st.pending_timeouts pt,
                   eraseReq st.outstanding_requests pt.tid⟩).st.outstanding_requests
                  pt.tid = none := by
              cases hfin : lookupReq (handle_timeouts rto now true n
                  ⟨heapErase st.pending_timeouts pt,
                   eraseReq st.outstanding_requests pt.tid⟩).st.outstanding_requests
                  pt.tid with
              | none => rfl
              | some q =>
                obtain ⟨q0, hq0, _⟩ := ih4 pt.tid q hfin
                rw [lookupReq_eraseReq_self hnd] at hq0
                exact Option.noConfusion hq0
            refine ⟨?_, ?_, ?_, ?_, ?_⟩
            · intro msg dest h
              rcases List.mem_cons.mp h with heq | h2
              · exact Effect.noConfusion heq
              · obtain ⟨req0, h1, h2, h3⟩ := ih2 msg dest h2
                exact ⟨req0, hlift _ _ h1, h2, h3⟩
            · intro s rr h
              rcases List.mem_cons.mp h with heq | h2
              · injection heq with hs hrr
                subst hs
                subst hrr
                exact ⟨rfl, pt.tid, req, hreq, rfl, hfinalnone⟩
              · obtain ⟨hrr, tid, req0, h1, h2, h3⟩ := ih3 s rr h2
                exact ⟨hrr, tid, req0, hlift _ _ h1, h2, h3⟩
            · intro tid req1 h
              obtain ⟨req0, h1, f1, f2, f3, f4, f5, hatt⟩ := ih4 tid req1 h
              refine ⟨req0, hlift _ _ h1, f1, f2, f3, f4, f5, ?_⟩
              rw [egressCountFor_cons_resolveSink]
              exact hatt
            · intro pt2 hpt
              rcases ih5 pt2 hpt with hmem | hnew
              · exact Or.inl (heapErase_subset hmem)
              · obtain ⟨req0, k, r, h1, hc, he⟩ := hnew
                exact Or.inr ⟨req0, k, r, hlift _ _ h1, hc, he⟩
            · intro hc pt2 hpt
              exact ih6 hc pt2 hpt
          · -- retransmission
            rw [ht_retransmit rto now n st pt req r hpeek hexp hreq hrto]
            have hnd1 : (reqKeys (modifyReq st.outstanding_requests pt.tid
                (fun q => { q with attempts_made := q.attempts_made + 1 }))).Nodup := by
              rw [reqKeys_modifyReq]
              exact hnd
            obtain ⟨ih2, ih3, ih4, ih5, ih6⟩ :=
              ih ⟨{ timeout_at := now + r, tid := pt.tid } ::
                    heapErase st.pending_timeouts pt,
                  modifyReq st.outstanding_requests pt.tid
                    (fun q => { q with attempts_made := q.attempts_made + 1 })⟩ hnd1
            have hlift : ∀ tid q,
                lookupReq (modifyReq st.outstanding_requests pt.tid
                  (fun q => { q with attempts_made := q.attempts_made + 1 }))
                  tid = some q →
                ∃ q0, lookupReq st.outstanding_requests tid = some q0 ∧
                  q.destination_addr = q0.destination_addr ∧
                  q.method = q0.method ∧
                  q.attributes = q0.attributes ∧
                  q.start_time = q0.start_time ∧
                  q.response_sink = q0.response_sink ∧
                  q.attempts_made = q0.attempts_made +
                    (if tid = pt.tid then 1 else 0) := by
              intro tid q hq
              by_cases htid : tid = pt.tid
              · subst htid
                rw [lookupReq_modifyReq_self, hreq] at hq
                have hq2 : { req with attempts_made := req.attempts_made + 1 } = q :=
                  Option.some.inj hq
                subst hq2
                exact ⟨req, hreq, rfl, rfl, rfl, rfl, rfl, by simp⟩
              · rw [lookupReq_modifyReq_ne htid] at hq
                exact ⟨q, hq, rfl, rfl, rfl, rfl, rfl, by simp [htid]⟩
            refine ⟨?_, ?_, ?_, ?_, ?_⟩
            · intro msg dest h
              rcases List.mem_cons.mp h with heq | h2
              · injection heq with hmsg hdest
                subst hmsg
                subst hdest
                exact ⟨req, hreq, rfl, rfl⟩
              · obtain ⟨req0, h1, h2, h3⟩ := ih2 msg dest h2
                obtain ⟨q0, hq0, g1, g2, g3, g4, g5, _⟩ := hlift _ _ h1
                refine ⟨q0, hq0, ?_, ?_⟩
                · rw [g2, g3] at h2
                  exact h2
                · rw [g1] at h3
                  exact h3
            · intro s rr h
              rcases List.mem_cons.mp h with heq | h2
              · exact Effect.noConfusion heq
              · obtain ⟨hrr, tid, req0, h1, h2, h3⟩ := ih3 s rr h2
                obtain ⟨q0, hq0, g1, g2, g3, g4, g5, _⟩ := hlift _ _ h1
                exact ⟨hrr, tid, q0, hq0, by rw [h2, g5], h3⟩
            · intro tid req1 h
              obtain ⟨req0, h1, f1, f2, f3, f4, f5, hatt⟩ := ih4 tid req1 h
              obtain ⟨q0, hq0, g1, g2, g3, g4, g5, gatt⟩ := hlift _ _ h1
              refine ⟨q0, hq0, f1.trans g1, f2.trans g2, f3.trans g3,
                f4.trans g4, f5.trans g5, ?_⟩
              rw [egressCountFor_cons_egress]
              have hhd : (Message.request req.method pt.tid
                  req.attributes).header.transaction_id = pt.tid := rfl
              rw [hhd]
              by_cases htid : tid = pt.tid
              · subst htid
                simp only [if_pos rfl] at gatt ⊢
                omega
              · have : ¬ pt.tid = tid := fun hh => htid hh.symm
                simp only [if_neg htid] at gatt
                simp only [if_neg this]
                omega
            · intro pt2 hpt
              rcases ih5 pt2 hpt with hmem | hnew
              · rcases List.mem_cons.mp hmem with rfl | hmem2
                · exact Or.inr ⟨req, req.attempts_made, r, hreq, hrto, rfl⟩
                · exact Or.inl (heapErase_subset hmem2)
              · obtain ⟨req0, k, r2, h1, hc, he⟩ := hnew
                obtain ⟨q0, hq0, g1, g2, g3, g4, g5, _⟩ := hlift _ _ h1
                rw [g1, g4] at hc
                exact Or.inr ⟨q0, k, r2, hq0, hc, he⟩
            · intro hc pt2 hpt
              exact ih6 hc pt2 hpt
      · rw [ht_future rto now true n st pt hpeek hexp]
        refine ⟨?_, ?_, ?_, ?_, ?_⟩
        · intro msg dest h
          simp at h
        · intro s rr h
          simp at h
        · intro tid req1 h
          exact ⟨req1, h, rfl, rfl, rfl, rfl, rfl, by simp [egressCountFor_nil]⟩
        · intro pt2 hpt
          exact Or.inl hpt
        · intro _ pt2 hpt
          have := heapPeek_le hpeek pt2 hpt
          omega



/-! ### Further association-list lemmas -/

theorem lookupReq_insertReq_self (m : List (Nat × Request)) (k : Nat)
    (r : Request) : lookupReq (insertReq m k r) k = some r := by
  simp [insertReq, lookupReq]

theorem lookupReq_insertReq_ne {m : List (Nat × Request)} {k k' : Nat}
    {r : Request} (h : k' ≠ k) :
    lookupReq (insertReq m k r) k' = lookupReq m k' := by
  simp only [insertReq, lookupReq, if_neg (fun hh : k = k' => h hh.symm)]
  exact lookupReq_eraseReq_ne h

theorem mem_reqKeys_isSome {m : List (Nat × Request)} {k : Nat}
    (h : k ∈ reqKeys m) : (lookupReq m k).isSome := by
  induction m with
  | nil => simp [reqKeys] at h
  | cons p rest ih =>
    obtain ⟨a, v⟩ := p
    simp only [reqKeys, List.map_cons, List.mem_cons] at h
    by_cases ha : a = k
    · simp [lookupReq, ha]
    · rcases h with h | h
      · exact absurd h.symm ha
      · simp only [lookupReq, if_neg ha]
        exact ih h

theorem reqKeys_insertReq_nodup {m : List (Nat × Request)} {k : Nat}
    {r : Request} (h : (reqKeys m).Nodup) :
    (reqKeys (insertReq m k r)).Nodup := by
  simp only [insertReq, reqKeys, List.map_cons, List.nodup_cons]
  refine ⟨?_, reqKeys_eraseReq_nodup h⟩
  intro hmem
  have hsome := mem_reqKeys_isSome hmem
  rw [lookupReq_eraseReq_self h] at hsome
  simp at hsome

theorem lookupReq_eraseReq_preserve_none {m : List (Nat × Request)}
    {k tid : Nat} (h : lookupReq m tid = none) :
    lookupReq (eraseReq m k) tid = none := by
  induction m with
  | nil => rfl
  | cons p rest ih =>
    obtain ⟨a, v⟩ := p
    simp only [lookupReq] at h
    by_cases ha : a = tid
    · rw [if_pos ha] at h
      exact Option.noConfusion h
    · rw [if_neg ha] at h
      simp only [eraseReq]
      by_cases hak : a = k
      · rw [if_pos hak]
        exact h
      · rw [if_neg hak]
        simp only [lookupReq, if_neg ha]
        exact ih h

theorem lookupReq_eraseReq_isSome {m : List (Nat × Request)} {k tid : Nat}
    (h : (lookupReq (eraseReq m k) tid).isSome) :
    (lookupReq m tid).isSome := by
  by_contra hc
  rw [Option.not_isSome_iff_eq_none] at hc
  rw [lookupReq_eraseReq_preserve_none hc] at h
  simp at h

theorem lookupReq_modifyReq_preserve_none {m : List (Nat × Request)}
    {k tid : Nat} {f : Request → Request} (h : lookupReq m tid = none) :
    lookupReq (modifyReq m k f) tid = none := by
  by_cases htid : tid = k
  · subst htid
    rw [lookupReq_modifyReq_self, h]
    rfl
  · rw [lookupReq_modifyReq_ne htid]
    exact h

/-! ### Branch-wise unfolding of `handle_incoming_message` -/

theorem him_request (now : Nat) (indOk : Bool) (st : ManagerState)
    (message : Message) (src : Nat) (h : message.header.cls = Class.Request) :
    handle_incoming_message now indOk st message src =
      ⟨StepResult.ok, st, []⟩ := by
  unfold handle_incoming_message
  rw [h]

theorem him_indication (now : Nat) (indOk : Bool) (st : ManagerState)
    (message : Message) (src : Nat)
    (h : message.header.cls = Class.Indication) :
    handle_incoming_message now indOk st message src =
      if indOk then
        ⟨StepResult.ok, st,
          [Effect.forwardIndication
            ⟨src, message.header.method, message.attributes⟩]⟩
      else ⟨StepResult.err TransactionError.ChannelClosed, st, []⟩ := by
  unfold handle_incoming_message
  rw [h]

theorem him_orphan (now : Nat) (indOk : Bool) (st : ManagerState)
    (message : Message) (src : Nat)
    (hcls : message.header.cls = Class.Response ∨
      message.header.cls = Class.Error)
    (hnone : lookupReq st.outstanding_requests message.header.transaction_id =
      none) :
    handle_incoming_message now indOk st message src =
      ⟨StepResult.ok, st, []⟩ := by
  rcases hcls with h | h <;>
    (unfold handle_incoming_message
     rw [h]
     simp only [hnone])

theorem him_mismatch (now : Nat) (indOk : Bool) (st : ManagerState)
    (message : Message) (src : Nat) (req : Request)
    (hcls : message.header.cls = Class.Response ∨
      message.header.cls = Class.Error)
    (hreq : lookupReq st.outstanding_requests message.header.transaction_id =
      some req)
    (hsrc : ¬ req.destination_addr = src) :
    handle_incoming_message now indOk st message src =
      ⟨StepResult.ok,
        { st with outstanding_requests :=
            eraseReq st.outstanding_requests message.header.transaction_id },
        []⟩ := by
  rcases hcls with h | h <;>
    (unfold handle_incoming_message
     rw [h]
     simp only [hreq, hsrc, if_false, ite_false, if_neg hsrc])

theorem him_match (now : Nat) (indOk : Bool) (st : ManagerState)
    (message : Message) (src : Nat) (req : Request)
    (hcls : message.header.cls = Class.Response ∨
      message.header.cls = Class.Error)
    (hreq : lookupReq st.outstanding_requests message.header.transaction_id =
      some req)
    (hsrc : req.destination_addr = src) :
    handle_incoming_message now indOk st message src =
      ⟨StepResult.ok,
        { pending_timeouts :=
            st.pending_timeouts.filter
              (fun pt => pt.tid ≠ message.header.transaction_id)
          outstanding_requests :=
            eraseReq st.outstanding_requests message.header.transaction_id },
        (if req.attempts_made = 1 then
          [Effect.submitRtt message.header.transaction_id src
            (now - req.start_time)]
        else []) ++
        [Effect.resolveSink req.response_sink
          (if req.method ≠ message.header.method then
            Except.error
              (TransactionError.MethodMismatch req.method message.header.method)
          else if message.header.cls = Class.Response then
            Except.ok (Response.Success message.attributes)
          else Except.ok (Response.Error message.attributes))]⟩ := by
  rcases hcls with h | h <;>
    (unfold handle_incoming_message
     rw [h]
     simp only [hreq, if_pos hsrc, h]
     by_cases hatt : req.attempts_made = 1 <;> simp [hatt])


/-! ### Counting `submit_rtt` effects -/

theorem countSubmitRtt_nil (tid : Nat) : countSubmitRtt tid [] = 0 := rfl

theorem countSubmitRtt_append (tid : Nat) (a b : List Effect) :
    countSubmitRtt tid (a ++ b) =
      countSubmitRtt tid a + countSubmitRtt tid b := by
  simp [countSubmitRtt, List.filter_append]

theorem countSubmitRtt_cons_egress (tid : Nat) (msg : Message) (dest : Nat)
    (effs : List Effect) :
    countSubmitRtt tid (Effect.egress msg dest :: effs) =
      countSubmitRtt tid effs := by
  simp [countSubmitRtt]

theorem countSubmitRtt_cons_resolveSink (tid s : Nat)
    (rr : Except TransactionError Response) (effs : List Effect) :
    countSubmitRtt tid (Effect.resolveSink s rr :: effs) =
      countSubmitRtt tid effs := by
  simp [countSubmitRtt]

theorem countSubmitRtt_cons_forward (tid : Nat) (ind : Indication)
    (effs : List Effect) :
    countSubmitRtt tid (Effect.forwardIndication ind :: effs) =
      countSubmitRtt tid effs := by
  simp [countSubmitRtt]

theorem countSubmitRtt_cons_submit (tid t a el : Nat) (effs : List Effect) :
    countSubmitRtt tid (Effect.submitRtt t a el :: effs) =
      (if t = tid then 1 else 0) + countSubmitRtt tid effs := by
  by_cases h : t = tid <;>
    simp [countSubmitRtt, h, List.filter_cons, Nat.add_comm]

theorem hor_no_submit (rto : RtoPolicy) (tid2 now : Nat) (eg : Bool)
    (st : ManagerState) (req : Request) (tid : Nat) :
    countSubmitRtt tid
      (handle_outgoing_request rto tid2 now eg st req).effs = 0 := by
  cases eg <;> simp [handle_outgoing_request, countSubmitRtt]

theorem hoi_no_submit (tid2 : Nat) (eg : Bool) (st : ManagerState)
    (ind : Indication) (tid : Nat) :
    countSubmitRtt tid
      (handle_outgoing_indication tid2 eg st ind).effs = 0 := by
  cases eg <;> simp [handle_outgoing_indication, countSubmitRtt]

theorem ht_no_submit (rto : RtoPolicy) (now : Nat) (eg : Bool) :
    ∀ (fuel : Nat) (st : ManagerState) (tid : Nat),
      countSubmitRtt tid (handle_timeouts rto now eg fuel st).effs = 0 := by
  intro fuel
  induction fuel with
  | zero =>
    intro st tid
    rw [ht_zero]
    rfl
  | succ n ih =>
    intro st tid
    rcases hpeek : heapPeek st.pending_timeouts with _ | pt
    · rw [ht_none rto now eg n st hpeek]
      rfl
    · by_cases hexp : pt.timeout_at ≤ now
      · rcases hreq : lookupReq st.outstanding_requests pt.tid with _ | req
        · rw [ht_panic rto now eg n st pt hpeek hexp hreq]
          rfl
        · rcases hrto : rto.calculate_rto req.destination_addr
            req.attempts_made req.start_time with _ | r
          · rw [ht_timeout rto now eg n st pt req hpeek hexp hreq hrto]
            rw [show (⟨(handle_timeouts rto now eg n
                ⟨heapErase st.pending_timeouts pt,
                 eraseReq st.outstanding_requests pt.tid⟩).res,
              (handle_timeouts rto now eg n
                ⟨heapErase st.pending_timeouts pt,
                 eraseReq st.outstanding_requests pt.tid⟩).st,
              Effect.resolveSink req.response_sink
                  (Except.error TransactionError.Timeout) ::
                (handle_timeouts rto now eg n
                  ⟨heapErase st.pending_timeouts pt,
                   eraseReq st.outstanding_requests pt.tid⟩).effs,
              pt.timeout_at ::
                (handle_timeouts rto now eg n
                  ⟨heapErase st.pending_timeouts pt,
                   eraseReq st.outstanding_requests pt.tid⟩).popped,
              (handle_timeouts rto now eg n
                ⟨heapErase st.pending_timeouts pt,
                 eraseReq st.outstanding_requests pt.tid⟩).completed⟩ :
              TimeoutsOut).effs =
              Effect.resolveSink req.response_sink
                  (Except.error TransactionError.Timeout) ::
                (handle_timeouts rto now eg n
                  ⟨heapErase st.pending_timeouts pt,
                   eraseReq st.outstanding_requests pt.tid⟩).effs from rfl]
            rw [countSubmitRtt_cons_resolveSink]
            exact ih _ tid
          · cases eg with
            | false =>
              rw [ht_fail rto now n st pt req r hpeek hexp hreq hrto]
              rfl
            | true =>
              rw [ht_retransmit rto now n st pt req r hpeek hexp hreq hrto]
              rw [show (⟨(handle_timeouts rto now true n
                  ⟨{ timeout_at := now + r, tid := pt.tid } ::
                     heapErase st.pending_timeouts pt,
                   modifyReq st.outstanding_requests pt.tid
                     (fun q => { q with attempts_made := q.attempts_made + 1 })⟩).res,
                (handle_timeouts rto now true n
                  ⟨{ timeout_at := now + r, tid := pt.tid } ::
                     heapErase st.pending_timeouts pt,
                   modifyReq st.outstanding_requests pt.tid
                     (fun q => { q with attempts_made := q.attempts_made + 1 })⟩).st,
                Effect.egress (Message.request req.method pt.tid req.attributes)
                    req.destination_addr ::
                  (handle_timeouts rto now true n
                    ⟨{ timeout_at := now + r, tid := pt.tid } ::
                       heapErase st.pending_timeouts pt,
                     modifyReq st.outstanding_requests pt.tid
                       (fun q => { q with attempts_made := q.attempts_made + 1 })⟩).effs,
                pt.timeout_at ::
                  (handle_timeouts rto now true n
                    ⟨{ timeout_at := now + r, tid := pt.tid } ::
                       heapErase st.pending_timeouts pt,
                     modifyReq st.outstanding_requests pt.tid
                       (fun q => { q with attempts_made := q.attempts_made + 1 })⟩).popped,
                (handle_timeouts rto now true n
                  ⟨{ timeout_at := now + r, tid := pt.tid } ::
                     heapErase st.pending_timeouts pt,
                   modifyReq st.outstanding_requests pt.tid
                     (fun q => { q with attempts_made := q.attempts_made + 1 })⟩).completed⟩ :
                TimeoutsOut).effs =
                Effect.egress (Message.request req.method pt.tid req.attributes)
                    req.destination_addr ::
                  (handle_timeouts rto now true n
                    ⟨{ timeout_at := now + r, tid := pt.tid } ::
                       heapErase st.pending_timeouts pt,
                     modifyReq st.outstanding_requests pt.tid
                       (fun q => { q with attempts_made := q.attempts_made + 1 })⟩).effs from rfl]
              rw [countSubmitRtt_cons_egress]
              exact ih _ tid
      · rw [ht_future rto now eg n st pt hpeek hexp]
        rfl


theorem ht_lookup_none (rto : RtoPolicy) (now : Nat) (eg : Bool) :
    ∀ (fuel : Nat) (st : ManagerState) (tid : Nat),
      lookupReq st.outstanding_requests tid = none →
      lookupReq
        (handle_timeouts rto now eg fuel st).st.outstanding_requests tid =
        none := by
  intro fuel
  induction fuel with
  | zero =>
    intro st tid h
    rw [ht_zero]
    exact h
  | succ n ih =>
    intro st tid h
    rcases hpeek : heapPeek st.pending_timeouts with _ | pt
    · rw [ht_none rto now eg n st hpeek]
      exact h
    · by_cases hexp : pt.timeout_at ≤ now
      · rcases hreq : lookupReq st.outstanding_requests pt.tid with _ | req
        · rw [ht_panic rto now eg n st pt hpeek hexp hreq]
          exact h
        · rcases hrto : rto.calculate_rto req.destination_addr
            req.attempts_made req.start_time with _ | r
          · rw [ht_timeout rto now eg n st pt req hpeek hexp hreq hrto]
            exact ih _ tid (lookupReq_eraseReq_preserve_none h)
          · cases eg with
            | false =>
              rw [ht_fail rto now n st pt req r hpeek hexp hreq hrto]
              exact h
            | true =>
              rw [ht_retransmit rto now n st pt req r hpeek hexp hreq hrto]
              exact ih _ tid (lookupReq_modifyReq_preserve_none h)
      · rw [ht_future rto now eg n st pt hpeek hexp]
        exact h

theorem ht_keys_nodup (rto : RtoPolicy) (now : Nat) (eg : Bool) :
    ∀ (fuel : Nat) (st : ManagerState),
      (reqKeys st.outstanding_requests).Nodup →
      (reqKeys
        (handle_timeouts rto now eg fuel st).st.outstanding_requests).Nodup := by
  intro fuel
  induction fuel with
  | zero =>
    intro st h
    rw [ht_zero]
    exact h
  | succ n ih =>
    intro st h
    rcases hpeek : heapPeek st.pending_timeouts with _ | pt
    · rw [ht_none rto now eg n st hpeek]
      exact h
    · by_cases hexp : pt.timeout_at ≤ now
      · rcases hreq : lookupReq st.outstanding_requests pt.tid with _ | req
        · rw [ht_panic rto now eg n st pt hpeek hexp hreq]
          exact h
        · rcases hrto : rto.calculate_rto req.destination_addr
            req.attempts_made req.start_time with _ | r
          · rw [ht_timeout rto now eg n st pt req hpeek hexp hreq hrto]
            exact ih _ (reqKeys_eraseReq_nodup h)
          · cases eg with
            | false =>
              rw [ht_fail rto now n st pt req r hpeek hexp hreq hrto]
              exact h
            | true =>
              rw [ht_retransmit rto now n st pt req r hpeek hexp hreq hrto]
              refine ih _ ?_
              rw [show reqKeys (modifyReq st.outstanding_requests pt.tid
                (fun q => { q with attempts_made := q.attempts_made + 1 })) =
                reqKeys st.outstanding_requests from
                reqKeys_modifyReq _ _ _]
              exact h
      · rw [ht_future rto now eg n st pt hpeek hexp]
        exact h

theorem him_count_ne (now : Nat) (indOk : Bool) (st : ManagerState)
    (message : Message) (src tid : Nat)
    (h : tid ≠ message.header.transaction_id) :
    countSubmitRtt tid
      (handle_incoming_message now indOk st message src).effs = 0 := by
  cases hcls : message.header.cls with
  | Request =>
    rw [him_request now indOk st message src hcls]
    rfl
  | Indication =>
    rw [him_indication now indOk st message src hcls]
    cases indOk <;> rfl
  | Response =>
    rcases hreq : lookupReq st.outstanding_requests
        message.header.transaction_id with _ | req
    · rw [him_orphan now indOk st message src (Or.inl hcls) hreq]
      rfl
    · by_cases hsrc : req.destination_addr = src
      · rw [him_match now indOk st message src req (Or.inl hcls) hreq hsrc]
        have hne : ¬ message.header.transaction_id = tid :=
          fun hh => h hh.symm
        by_cases hatt : req.attempts_made = 1 <;>
          simp [hatt, countSubmitRtt_append, countSubmitRtt_cons_submit,
            countSubmitRtt_cons_resolveSink, countSubmitRtt_nil, hne]
      · rw [him_mismatch now indOk st message src req (Or.inl hcls) hreq hsrc]
        rfl
  | Error =>
    rcases hreq : lookupReq st.outstanding_requests
        message.header.transaction_id with _ | req
    · rw [him_orphan now indOk st message src (Or.inr hcls) hreq]
      rfl
    · by_cases hsrc : req.destination_addr = src
      · rw [him_match now indOk st message src req (Or.inr hcls) hreq hsrc]
        have hne : ¬ message.header.transaction_id = tid :=
          fun hh => h hh.symm
        by_cases hatt : req.attempts_made = 1 <;>
          simp [hatt, countSubmitRtt_append, countSubmitRtt_cons_submit,
            countSubmitRtt_cons_resolveSink, countSubmitRtt_nil, hne]
      · rw [him_mismatch now indOk st message src req (Or.inr hcls) hreq hsrc]
        rfl

theorem him_lookup_none (now : Nat) (indOk : Bool) (st : ManagerState)
    (message : Message) (src tid : Nat)
    (h : lookupReq st.outstanding_requests tid = none) :
    lookupReq
      (handle_incoming_message now indOk st message src).st.outstanding_requests
      tid = none := by
  cases hcls : message.header.cls with
  | Request =>
    rw [him_request now indOk st message src hcls]
    exact h
  | Indication =>
    rw [him_indication now indOk st message src hcls]
    cases indOk <;> exact h
  | Response =>
    rcases hreq : lookupReq st.outstanding_requests
        message.header.transaction_id with _ | req
    · rw [him_orphan now indOk st message src (Or.inl hcls) hreq]
      exact h
    · by_cases hsrc : req.destination_addr = src
      · rw [him_match now indOk st message src req (Or.inl hcls) hreq hsrc]
        exact lookupReq_eraseReq_preserve_none h
      · rw [him_mismatch now indOk st message src req (Or.inl hcls) hreq hsrc]
        exact lookupReq_eraseReq_preserve_none h
  | Error =>
    rcases hreq : lookupReq st.outstanding_requests
        message.header.transaction_id with _ | req
    · rw [him_orphan now indOk st message src (Or.inr hcls) hreq]
      exact h
    · by_cases hsrc : req.destination_addr = src
      · rw [him_match now indOk st message src req (Or.inr hcls) hreq hsrc]
        exact lookupReq_eraseReq_preserve_none h
      · rw [him_mismatch now indOk st message src req (Or.inr hcls) hreq hsrc]
        exact lookupReq_eraseReq_preserve_none h


theorem hor_lookup_ne (rto : RtoPolicy) (tid2 now : Nat) (eg : Bool)
    (st : ManagerState) (req : Request) (tid : Nat) (h : tid ≠ tid2) :
    lookupReq
      (handle_outgoing_request rto tid2 now eg st req).st.outstanding_requests
      tid = lookupReq st.outstanding_requests tid := by
  cases eg with
  | false => rfl
  | true => exact lookupReq_insertReq_ne h

theorem hor_keys_nodup (rto : RtoPolicy) (tid2 now : Nat) (eg : Bool)
    (st : ManagerState) (req : Request)
    (h : (reqKeys st.outstanding_requests).Nodup) :
    (reqKeys
      (handle_outgoing_request rto tid2 now eg st req).st.outstanding_requests).Nodup := by
  cases eg with
  | false => exact h
  | true => exact reqKeys_insertReq_nodup h

theorem hoi_st (tid2 : Nat) (eg : Bool) (st : ManagerState) (ind : Indication) :
    (handle_outgoing_indication tid2 eg st ind).st = st := by
  cases eg <;> rfl

theorem him_keys_nodup (now : Nat) (indOk : Bool) (st : ManagerState)
    (message : Message) (src : Nat)
    (h : (reqKeys st.outstanding_requests).Nodup) :
    (reqKeys
      (handle_incoming_message now indOk st message src).st.outstanding_requests).Nodup := by
  cases hcls : message.header.cls with
  | Request =>
    rw [him_request now indOk st message src hcls]
    exact h
  | Indication =>
    rw [him_indication now indOk st message src hcls]
    cases indOk <;> exact h
  | Response =>
    rcases hreq : lookupReq st.outstanding_requests
        message.header.transaction_id with _ | req
    · rw [him_orphan now indOk st message src (Or.inl hcls) hreq]
      exact h
    · by_cases hsrc : req.destination_addr = src
      · rw [him_match now indOk st message src req (Or.inl hcls) hreq hsrc]
        exact reqKeys_eraseReq_nodup h
      · rw [him_mismatch now indOk st message src req (Or.inl hcls) hreq hsrc]
        exact reqKeys_eraseReq_nodup h
  | Error =>
    rcases hreq : lookupReq st.outstanding_requests
        message.header.transaction_id with _ | req
    · rw [him_orphan now indOk st message src (Or.inr hcls) hreq]
      exact h
    · by_cases hsrc : req.destination_addr = src
      · rw [him_match now indOk st message src req (Or.inr hcls) hreq hsrc]
        exact reqKeys_eraseReq_nodup h
      · rw [him_mismatch now indOk st message src req (Or.inr hcls) hreq hsrc]
        exact reqKeys_eraseReq_nodup h

theorem him_lookup_isSome (now : Nat) (indOk : Bool) (st : ManagerState)
    (message : Message) (src tid : Nat)
    (h : (lookupReq
      (handle_incoming_message now indOk st message src).st.outstanding_requests
      tid).isSome) :
    (lookupReq st.outstanding_requests tid).isSome := by
  cases hcls : message.header.cls with
  | Request =>
    rw [him_request now indOk st message src hcls] at h
    exact h
  | Indication =>
    rw [him_indication now indOk st message src hcls] at h
    cases indOk <;> exact h
  | Response =>
    rcases hreq : lookupReq st.outstanding_requests
        message.header.transaction_id with _ | req
    · rw [him_orphan now indOk st message src (Or.inl hcls) hreq] at h
      exact h
    · by_cases hsrc : req.destination_addr = src
      · rw [him_match now indOk st message src req (Or.inl hcls) hreq hsrc] at h
        exact lookupReq_eraseReq_isSome h
      · rw [him_mismatch now indOk st message src req (Or.inl hcls) hreq hsrc] at h
        exact lookupReq_eraseReq_isSome h
  | Error =>
    rcases hreq : lookupReq st.outstanding_requests
        message.header.transaction_id with _ | req
    · rw [him_orphan now indOk st message src (Or.inr hcls) hreq] at h
      exact h
    · by_cases hsrc : req.destination_addr = src
      · rw [him_match now indOk st message src req (Or.inr hcls) hreq hsrc] at h
        exact lookupReq_eraseReq_isSome h
      · rw [him_mismatch now indOk st message src req (Or.inr hcls) hreq hsrc] at h
        exact lookupReq_eraseReq_isSome h

/-! ### Runs never sample RTT twice for one transaction -/

theorem run_count_zero (rto : RtoPolicy) :
    ∀ (evs : List Event) (st : ManagerState) (tid : Nat),
      lookupReq st.outstanding_requests tid = none →
      tid ∉ requestTids evs →
      countSubmitRtt tid (runEvents rto st evs).2 = 0 := by
  intro evs
  induction evs with
  | nil =>
    intro st tid _ _
    rfl
  | cons e rest ih =>
    intro st tid hnone hnin
    simp only [runEvents, stepEvent]
    rw [countSubmitRtt_append]
    cases e with
    | outRequest tid2 now2 eg req =>
      simp only [requestTids, List.mem_cons] at hnin
      push_neg at hnin
      obtain ⟨hne, hnin2⟩ := hnin
      rw [hor_no_submit, Nat.zero_add]
      refine ih _ tid ?_ hnin2
      rw [hor_lookup_ne rto tid2 now2 eg st req tid hne]
      exact hnone
    | outIndication tid2 eg ind =>
      have hnin2 : tid ∉ requestTids rest := by
        simpa [requestTids] using hnin
      rw [hoi_no_submit, Nat.zero_add, hoi_st]
      exact ih st tid hnone hnin2
    | inMessage now2 indOk msg src =>
      have hnin2 : tid ∉ requestTids rest := by
        simpa [requestTids] using hnin
      have hc0 : countSubmitRtt tid
          (handle_incoming_message now2 indOk st msg src).effs = 0 := by
        by_cases hmt : tid = msg.header.transaction_id
        · cases hcls : msg.header.cls with
          | Request =>
            rw [him_request now2 indOk st msg src hcls]
            rfl
          | Indication =>
            rw [him_indication now2 indOk st msg src hcls]
            cases indOk <;> rfl
          | Response =>
            rw [him_orphan now2 indOk st msg src (Or.inl hcls)
              (by rw [← hmt]; exact hnone)]
            rfl
          | Error =>
            rw [him_orphan now2 indOk st msg src (Or.inr hcls)
              (by rw [← hmt]; exact hnone)]
            rfl
        · exact him_count_ne now2 indOk st msg src tid hmt
      rw [hc0, Nat.zero_add]
      exact ih _ tid (him_lookup_none now2 indOk st msg src tid hnone) hnin2
    | timeouts now2 eg fuel =>
      have hnin2 : tid ∉ requestTids rest := by
        simpa [requestTids] using hnin
      rw [ht_no_submit, Nat.zero_add]
      exact ih _ tid (ht_lookup_none rto now2 eg fuel st tid hnone) hnin2


theorem run_count_le_one (rto : RtoPolicy) :
    ∀ (evs : List Event) (st : ManagerState),
      (reqKeys st.outstanding_requests).Nodup →
      (requestTids evs).Nodup →
      (∀ t, (lookupReq st.outstanding_requests t).isSome →
        t ∉ requestTids evs) →
      ∀ tid, countSubmitRtt tid (runEvents rto st evs).2 ≤ 1 := by
  intro evs
  induction evs with
  | nil =>
    intro st _ _ _ tid
    show countSubmitRtt tid [] ≤ 1
    simp [countSubmitRtt]
  | cons e rest ih =>
    intro st hst hnd hdisj tid
    cases e with
    | outRequest tid2 now2 eg req =>
      simp only [runEvents, stepEvent]
      rw [countSubmitRtt_append]
      simp only [requestTids, List.nodup_cons] at hnd
      obtain ⟨h2notin, hnd2⟩ := hnd
      rw [hor_no_submit, Nat.zero_add]
      refine ih _ (hor_keys_nodup rto tid2 now2 eg st req hst) hnd2 ?_ tid
      intro t ht
      by_cases htt : t = tid2
      · subst htt
        exact h2notin
      · rw [hor_lookup_ne rto tid2 now2 eg st req t htt] at ht
        have h3 := hdisj t ht
        simp only [requestTids, List.mem_cons] at h3
        push_neg at h3
        exact h3.2
    | outIndication tid2 eg ind =>
      simp only [runEvents, stepEvent]
      rw [countSubmitRtt_append]
      have hnd2 : (requestTids rest).Nodup := by
        simpa [requestTids] using hnd
      have hdisj2 : ∀ t, (lookupReq st.outstanding_requests t).isSome →
          t ∉ requestTids rest := by
        intro t ht
        simpa [requestTids] using hdisj t ht
      rw [hoi_no_submit, Nat.zero_add, hoi_st]
      exact ih st hst hnd2 hdisj2 tid
    | inMessage now2 indOk msg src =>
      simp only [runEvents, stepEvent]
      rw [countSubmitRtt_append]
      have hnd2 : (requestTids rest).Nodup := by
        simpa [requestTids] using hnd
      have hdisj2 : ∀ t, (lookupReq st.outstanding_requests t).isSome →
          t ∉ requestTids rest := by
        intro t ht
        simpa [requestTids] using hdisj t ht
      have hih := ih (handle_incoming_message now2 indOk st msg src).st
        (him_keys_nodup now2 indOk st msg src hst) hnd2
        (fun t ht => hdisj2 t (him_lookup_isSome now2 indOk st msg src t ht))
        tid
      cases hcls : msg.header.cls with
      | Request =>
        rw [him_request now2 indOk st msg src hcls] at hih ⊢
        simpa [countSubmitRtt_nil, countSubmitRtt_cons_forward] using hih
      | Indication =>
        rw [him_indication now2 indOk st msg src hcls] at hih ⊢
        cases indOk <;> simpa [countSubmitRtt_nil, countSubmitRtt_cons_forward] using hih
      | Response =>
        rcases hreq : lookupReq st.outstanding_requests
            msg.header.transaction_id with _ | req
        · rw [him_orphan now2 indOk st msg src (Or.inl hcls) hreq] at hih ⊢
          simpa [countSubmitRtt_nil, countSubmitRtt_cons_forward] using hih
        · by_cases hsrc : req.destination_addr = src
          · rw [him_match now2 indOk st msg src req (Or.inl hcls) hreq hsrc]
              at hih ⊢
            by_cases hatt : req.attempts_made = 1
            · by_cases hmt : msg.header.transaction_id = tid
              · have hrnone : lookupReq
                    (eraseReq st.outstanding_requests tid) tid = none :=
                  lookupReq_eraseReq_self hst
                have hnin : tid ∉ requestTids rest := by
                  rw [← hmt]
                  exact hdisj2 _ (by rw [hreq]; rfl)
                simp [hatt, countSubmitRtt_append, countSubmitRtt_cons_submit,
                  countSubmitRtt_cons_resolveSink, countSubmitRtt_nil, hmt]
                exact run_count_zero rto rest _ tid hrnone hnin
              · simp only [hatt, if_pos rfl] at hih ⊢
                simpa [countSubmitRtt_append, countSubmitRtt_cons_submit,
                  countSubmitRtt_cons_resolveSink, countSubmitRtt_nil, hmt]
                  using hih
            · simpa [hatt, countSubmitRtt_append,
                countSubmitRtt_cons_resolveSink, countSubmitRtt_nil]
                using hih
          · rw [him_mismatch now2 indOk st msg src req (Or.inl hcls) hreq hsrc]
              at hih ⊢
            simpa [countSubmitRtt_nil, countSubmitRtt_cons_forward] using hih
      | Error =>
        rcases hreq : lookupReq st.outstanding_requests
            msg.header.transaction_id with _ | req
        · rw [him_orphan now2 indOk st msg src (Or.inr hcls) hreq] at hih ⊢
          simpa [countSubmitRtt_nil, countSubmitRtt_cons_forward] using hih
        · by_cases hsrc : req.destination_addr = src
          · rw [him_match now2 indOk st msg src req (Or.inr hcls) hreq hsrc]
              at hih ⊢
            by_cases hatt : req.attempts_made = 1
            · by_cases hmt : msg.header.transaction_id = tid
              · have hrnone : lookupReq
                    (eraseReq st.outstanding_requests tid) tid = none :=
                  lookupReq_eraseReq_self hst
                have hnin : tid ∉ requestTids rest := by
                  rw [← hmt]
                  exact hdisj2 _ (by rw [hreq]; rfl)
                simp [hatt, countSubmitRtt_append, countSubmitRtt_cons_submit,
                  countSubmitRtt_cons_resolveSink, countSubmitRtt_nil, hmt]
                exact run_count_zero rto rest _ tid hrnone hnin
              · simp only [hatt, if_pos rfl] at hih ⊢
                simpa [countSubmitRtt_append, countSubmitRtt_cons_submit,
                  countSubmitRtt_cons_resolveSink, countSubmitRtt_nil, hmt]
                  using hih
            · simpa [hatt, countSubmitRtt_append,
                countSubmitRtt_cons_resolveSink, countSubmitRtt_nil]
                using hih
          · rw [him_mismatch now2 indOk st msg src req (Or.inr hcls) hreq hsrc]
              at hih ⊢
            simpa [countSubmitRtt_nil, countSubmitRtt_cons_forward] using hih
    | timeouts now2 eg fuel =>
      simp only [runEvents, stepEvent]
      rw [countSubmitRtt_append]
      have hnd2 : (requestTids rest).Nodup := by
        simpa [requestTids] using hnd
      have hdisj2 : ∀ t, (lookupReq st.outstanding_requests t).isSome →
          t ∉ requestTids rest := by
        intro t ht
        simpa [requestTids] using hdisj t ht
      have hlift : ∀ t,
          (lookupReq (handle_timeouts rto now2 eg fuel
            st).st.outstanding_requests t).isSome →
          (lookupReq st.outstanding_requests t).isSome := by
        intro t ht2
        by_contra hc
        rw [Option.not_isSome_iff_eq_none] at hc
        rw [ht_lookup_none rto now2 eg fuel st t hc] at ht2
        simp at ht2
      rw [ht_no_submit, Nat.zero_add]
      exact ih _ (ht_keys_nodup rto now2 eg fuel st hst) hnd2
        (fun t ht => hdisj2 t (hlift t ht)) tid


theorem submitRtts_cons_egress (msg : Message) (dest : Nat)
    (effs : List Effect) :
    submitRtts (Effect.egress msg dest :: effs) = submitRtts effs := by
  simp [submitRtts]

theorem submitRtts_cons_resolveSink (s : Nat)
    (rr : Except TransactionError Response) (effs : List Effect) :
    submitRtts (Effect.resolveSink s rr :: effs) = submitRtts effs := by
  simp [submitRtts]

theorem ht_no_submit_list (rto : RtoPolicy) (now : Nat) (eg : Bool) :
    ∀ (fuel : Nat) (st : ManagerState),
      submitRtts (handle_timeouts rto now eg fuel st).effs = [] := by
  intro fuel
  induction fuel with
  | zero =>
    intro st
    rw [ht_zero]
    rfl
  | succ n ih =>
    intro st
    rcases hpeek : heapPeek st.pending_timeouts with _ | pt
    · rw [ht_none rto now eg n st hpeek]
      rfl
    · by_cases hexp : pt.timeout_at ≤ now
      · rcases hreq : lookupReq st.outstanding_requests pt.tid with _ | req
        · rw [ht_panic rto now eg n st pt hpeek hexp hreq]
          rfl
        · rcases hrto : rto.calculate_rto req.destination_addr
            req.attempts_made req.start_time with _ | r
          · rw [ht_timeout rto now eg n st pt req hpeek hexp hreq hrto]
            show submitRtts (Effect.resolveSink req.response_sink
                (Except.error TransactionError.Timeout) ::
              (handle_timeouts rto now eg n
                ⟨heapErase st.pending_timeouts pt,
                 eraseReq st.outstanding_requests pt.tid⟩).effs) = []
            rw [submitRtts_cons_resolveSink]
            exact ih _
          · cases eg with
            | false =>
              rw [ht_fail rto now n st pt req r hpeek hexp hreq hrto]
              rfl
            | true =>
              rw [ht_retransmit rto now n st pt req r hpeek hexp hreq hrto]
              show submitRtts (Effect.egress
                  (Message.request req.method pt.tid req.attributes)
                  req.destination_addr ::
                (handle_timeouts rto now true n
                  ⟨{ timeout_at := now + r, tid := pt.tid } ::
                     heapErase st.pending_timeouts pt,
                   modifyReq st.outstanding_requests pt.tid
                     (fun q => { q with attempts_made := q.attempts_made + 1 })⟩).effs) = []
              rw [submitRtts_cons_egress]
              exact ih _
      · rw [ht_future rto now eg n st pt hpeek hexp]
        rfl

/-! ### C7: Karn's rule for RTT samples -/

/-- C7: `submit_rtt` is invoked exactly when a Response- or Error-class
message with matching tid and matching source resolves an entry with
`attempts_made = 1`, and then with elapsed time `now - start_time`; entries
resolved after a retransmission (`attempts_made ≠ 1`) and every other path of
every handler submit nothing; and over any run from the empty state whose
request tids are pairwise distinct, `submit_rtt` fires at most once per
transaction id. -/
theorem submit_rtt_karn (rto : RtoPolicy) :
    (∀ (now : Nat) (indOk : Bool) (st : ManagerState) (message : Message)
        (src : Nat) (req : Request),
      (message.header.cls = Class.Response ∨
        message.header.cls = Class.Error) →
      lookupReq st.outstanding_requests message.header.transaction_id =
        some req →
      req.destination_addr = src →
      submitRtts (handle_incoming_message now indOk st message src).effs =
        (if req.attempts_made = 1 then
          [Effect.submitRtt message.header.transaction_id src
            (now - req.start_time)]
        else [])) ∧
    (∀ (now : Nat) (indOk : Bool) (st : ManagerState) (message : Message)
        (src : Nat),
      ((∀ req, lookupReq st.outstanding_requests
          message.header.transaction_id = some req →
          ¬ req.destination_addr = src) ∨
        message.header.cls = Class.Request ∨
        message.header.cls = Class.Indication) →
      submitRtts (handle_incoming_message now indOk st message src).effs =
        []) ∧
    (∀ (tid2 now : Nat) (eg : Bool) (st : ManagerState) (req : Request),
      submitRtts (handle_outgoing_request rto tid2 now eg st req).effs = []) ∧
    (∀ (tid2 : Nat) (eg : Bool) (st : ManagerState) (ind : Indication),
      submitRtts (handle_outgoing_indication tid2 eg st ind).effs = []) ∧
    (∀ (now : Nat) (eg : Bool) (fuel : Nat) (st : ManagerState),
      submitRtts (handle_timeouts rto now eg fuel st).effs = []) ∧
    (∀ evs : List Event, (requestTids evs).Nodup →
      ∀ tid, countSubmitRtt tid
        (runEvents rto ManagerState.initial evs).2 ≤ 1) := by
  refine ⟨?_, ?_, ?_, ?_, ?_, ?_⟩
  · intro now indOk st message src req hcls hreq hsrc
    rw [him_match now indOk st message src req hcls hreq hsrc]
    by_cases hatt : req.attempts_made = 1 <;> simp [submitRtts, hatt]
  · intro now indOk st message src h
    cases hcls : message.header.cls with
    | Request =>
      rw [him_request now indOk st message src hcls]
      rfl
    | Indication =>
      rw [him_indication now indOk st message src hcls]
      cases indOk <;> rfl
    | Response =>
      rcases hreq : lookupReq st.outstanding_requests
          message.header.transaction_id with _ | req
      · rw [him_orphan now indOk st message src (Or.inl hcls) hreq]
        rfl
      · rcases h with h | h | h
        · rw [him_mismatch now indOk st message src req (Or.inl hcls) hreq
            (h req hreq)]
          rfl
        · rw [hcls] at h
          exact Class.noConfusion h
        · rw [hcls] at h
          exact Class.noConfusion h
    | Error =>
      rcases hreq : lookupReq st.outstanding_requests
          message.header.transaction_id with _ | req
      · rw [him_orphan now indOk st message src (Or.inr hcls) hreq]
        rfl
      · rcases h with h | h | h
        · rw [him_mismatch now indOk st message src req (Or.inr hcls) hreq
            (h req hreq)]
          rfl
        · rw [hcls] at h
          exact Class.noConfusion h
        · rw [hcls] at h
          exact Class.noConfusion h
  · intro tid2 now eg st req
    cases eg <;> rfl
  · intro tid2 eg st ind
    cases eg <;> rfl
  · intro now eg fuel st
    exact ht_no_submit_list rto now eg fuel st
  · intro evs hnd tid
    refine run_count_le_one rto evs ManagerState.initial ?_ hnd ?_ tid
    · simp [ManagerState.initial, reqKeys]
    · intro t ht
      simp [ManagerState.initial, lookupReq] at ht

/-- C7 witness: a first-attempt response yields exactly one RTT sample with
the elapsed time, and a concrete two-event run samples transaction 7 at most
once. -/
theorem submit_rtt_karn_witness :
    (submitRtts (handle_incoming_message 5 true
      { pending_timeouts := [{ timeout_at := 100, tid := 7 }]
        outstanding_requests := [(7,
          { destination_addr := 1, method := 42, attributes := [],
            response_sink := 0, attempts_made := 1, start_time := 0 })] }
      { header := { cls := Class.Response, method := 42, transaction_id := 7 },
        attributes := [] } 1).effs =
      (if (1 : Nat) = 1 then [Effect.submitRtt 7 1 (5 - 0)] else [])) ∧
    countSubmitRtt 7 (runEvents (constRto 50) ManagerState.initial
      [Event.outRequest 7 0 true
        { destination_addr := 1, method := 42, attributes := [],
          response_sink := 0, attempts_made := 0, start_time := 0 },
       Event.inMessage 5 true
        { header := { cls := Class.Response, method := 42, transaction_id := 7 },
          attributes := [] } 1]).2 ≤ 1 :=
  ⟨(submit_rtt_karn (constRto 50)).1 5 true
    { pending_timeouts := [{ timeout_at := 100, tid := 7 }]
      outstanding_requests := [(7,
        { destination_addr := 1, method := 42, attributes := [],
          response_sink := 0, attempts_made := 1, start_time := 0 })] }
    { header := { cls := Class.Response, method := 42, transaction_id := 7 },
      attributes := [] } 1
    { destination_addr := 1, method := 42, attributes := [],
      response_sink := 0, attempts_made := 1, start_time := 0 }
    (Or.inl rfl) rfl rfl,
   (submit_rtt_karn (constRto 50)).2.2.2.2.2
    [Event.outRequest 7 0 true
      { destination_addr := 1, method := 42, attributes := [],
        response_sink := 0, attempts_made := 0, start_time := 0 },
     Event.inMessage 5 true
      { header := { cls := Class.Response, method := 42, transaction_id := 7 },
        attributes := [] } 1]
    (by decide) 7⟩


/-! ### Conservation and completeness of the timeout loop -/

theorem heapErase_mem_or {l : List PendingTimeout} (pt : PendingTimeout)
    {x : PendingTimeout} (h : x ∈ l) : x ∈ heapErase l pt ∨ x = pt := by
  induction l with
  | nil => simp at h
  | cons y rest ih =>
    rcases List.mem_cons.mp h with rfl | hx
    · by_cases hy : x = pt
      · exact Or.inr hy
      · simp only [heapErase, if_neg hy]
        exact Or.inl (List.mem_cons_self x _)
    · by_cases hy : y = pt
      · simp only [heapErase, if_pos hy]
        exact Or.inl hx
      · simp only [heapErase, if_neg hy]
        rcases ih hx with h2 | h2
        · exact Or.inl (List.mem_cons_of_mem y h2)
        · exact Or.inr h2

theorem ht_completed_future (rto : RtoPolicy) (now : Nat) (eg : Bool) :
    ∀ (fuel : Nat) (st : ManagerState),
      (handle_timeouts rto now eg fuel st).completed = true →
      ∀ x ∈ (handle_timeouts rto now eg fuel st).st.pending_timeouts,
        now < x.timeout_at := by
  intro fuel
  induction fuel with
  | zero =>
    intro st h x hx
    rw [ht_zero] at h
    simp at h
  | succ n ih =>
    intro st h x hx
    rcases hpeek : heapPeek st.pending_timeouts with _ | pt
    · rw [ht_none rto now eg n st hpeek] at hx
      have hempty : st.pending_timeouts = [] := (heapPeek_eq_none_iff _).mp hpeek
      rw [show ((⟨StepResult.ok, st, [], [], true⟩ :
          TimeoutsOut)).st.pending_timeouts = st.pending_timeouts from rfl,
        hempty] at hx
      simp at hx
    · by_cases hexp : pt.timeout_at ≤ now
      · rcases hreq : lookupReq st.outstanding_requests pt.tid with _ | req
        · rw [ht_panic rto now eg n st pt hpeek hexp hreq] at h
          simp at h
        · rcases hrto : rto.calculate_rto req.destination_addr
            req.attempts_made req.start_time with _ | r
          · rw [ht_timeout rto now eg n st pt req hpeek hexp hreq hrto] at h hx
            exact ih _ h x hx
          · cases eg with
            | false =>
              rw [ht_fail rto now n st pt req r hpeek hexp hreq hrto] at h
              simp at h
            | true =>
              rw [ht_retransmit rto now n st pt req r hpeek hexp hreq hrto]
                at h hx
              exact ih _ h x hx
      · rw [ht_future rto now eg n st pt hpeek hexp] at hx
        have hle := heapPeek_le hpeek x hx
        omega

theorem ht_heap_conserve (rto : RtoPolicy) (now : Nat) (eg : Bool) :
    ∀ (fuel : Nat) (st : ManagerState),
      ∀ x ∈ st.pending_timeouts,
        x ∈ (handle_timeouts rto now eg fuel st).st.pending_timeouts ∨
        x.timeout_at ∈ (handle_timeouts rto now eg fuel st).popped := by
  intro fuel
  induction fuel with
  | zero =>
    intro st x hx
    rw [ht_zero]
    exact Or.inl hx
  | succ n ih =>
    intro st x hx
    rcases hpeek : heapPeek st.pending_timeouts with _ | pt
    · rw [ht_none rto now eg n st hpeek]
      exact Or.inl hx
    · by_cases hexp : pt.timeout_at ≤ now
      · rcases hreq : lookupReq st.outstanding_requests pt.tid with _ | req
        · rw [ht_panic rto now eg n st pt hpeek hexp hreq]
          rcases heapErase_mem_or pt hx with h2 | rfl
          · exact Or.inl h2
          · exact Or.inr (List.mem_singleton_self _)
        · rcases hrto : rto.calculate_rto req.destination_addr
            req.attempts_made req.start_time with _ | r
          · rw [ht_timeout rto now eg n st pt req hpeek hexp hreq hrto]
            rcases heapErase_mem_or pt hx with h2 | rfl
            · rcases ih ⟨heapErase st.pending_timeouts pt,
                  eraseReq st.outstanding_requests pt.tid⟩ x h2 with h3 | h3
              · exact Or.inl h3
              · exact Or.inr (List.mem_cons_of_mem _ h3)
            · exact Or.inr (List.mem_cons_self _ _)
          · cases eg with
            | false =>
              rw [ht_fail rto now n st pt req r hpeek hexp hreq hrto]
              rcases heapErase_mem_or pt hx with h2 | rfl
              · exact Or.inl h2
              · exact Or.inr (List.mem_singleton_self _)
            | true =>
              rw [ht_retransmit rto now n st pt req r hpeek hexp hreq hrto]
              rcases heapErase_mem_or pt hx with h2 | rfl
              · rcases ih ⟨{ timeout_at := now + r, tid := pt.tid } ::
                    heapErase st.pending_timeouts pt,
                  modifyReq st.outstanding_requests pt.tid
                    (fun q => { q with attempts_made := q.attempts_made + 1 })⟩
                  x (List.mem_cons_of_mem _ h2) with h3 | h3
                · exact Or.inl h3
                · exact Or.inr (List.mem_cons_of_mem _ h3)
              · exact Or.inr (List.mem_cons_self _ _)
      · rw [ht_future rto now eg n st pt hpeek hexp]
        exact Or.inl hx


theorem ht_push_bound (rto : RtoPolicy) (now : Nat) :
    ∀ (fuel : Nat) (st : ManagerState),
      (reqKeys st.outstanding_requests).Nodup →
      ∀ pt2 ∈ (handle_timeouts rto now true fuel st).st.pending_timeouts,
        pt2 ∈ st.pending_timeouts ∨
        ∃ req0 k r, lookupReq st.outstanding_requests pt2.tid = some req0 ∧
          req0.attempts_made ≤ k ∧
          k < req0.attempts_made +
            egressCountFor pt2.tid (handle_timeouts rto now true fuel st).effs ∧
          rto.calculate_rto req0.destination_addr k req0.start_time = some r ∧
          pt2.timeout_at = now + r := by
  intro fuel
  induction fuel with
  | zero =>
    intro st hnd pt2 hpt
    rw [ht_zero] at hpt
    exact Or.inl hpt
  | succ n ih =>
    intro st hnd pt2 hpt
    rcases hpeek : heapPeek st.pending_timeouts with _ | pt
    · rw [ht_none rto now true n st hpeek] at hpt
      exact Or.inl hpt
    · by_cases hexp : pt.timeout_at ≤ now
      · rcases hreq : lookupReq st.outstanding_requests pt.tid with _ | req
        · rw [ht_panic rto now true n st pt hpeek hexp hreq] at hpt
          exact Or.inl (heapErase_subset hpt)
        · rcases hrto : rto.calculate_rto req.destination_addr
            req.attempts_made req.start_time with _ | r
          · -- policy gave up on the head timeout: recurse after the erase
            have hsteq : (handle_timeouts rto now true (n + 1) st).st =
                (handle_timeouts rto now true n
                  ⟨heapErase st.pending_timeouts pt,
                   eraseReq st.outstanding_requests pt.tid⟩).st := by
              rw [ht_timeout rto now true n st pt req hpeek hexp hreq hrto]
            have heffs : (handle_timeouts rto now true (n + 1) st).effs =
                Effect.resolveSink req.response_sink
                    (Except.error TransactionError.Timeout) ::
                  (handle_timeouts rto now true n
                    ⟨heapErase st.pending_timeouts pt,
                     eraseReq st.outstanding_requests pt.tid⟩).effs := by
              rw [ht_timeout rto now true n st pt req hpeek hexp hreq hrto]
            rw [hsteq] at hpt
            rw [heffs, egressCountFor_cons_resolveSink]
            have hnd1 : (reqKeys
                (eraseReq st.outstanding_requests pt.tid)).Nodup :=
              reqKeys_eraseReq_nodup hnd
            rcases ih ⟨heapErase st.pending_timeouts pt,
                eraseReq st.outstanding_requests pt.tid⟩ hnd1 pt2 hpt
              with h2 | h2
            · exact Or.inl (heapErase_subset h2)
            · obtain ⟨req0, k, r2, h1, hlo, hhi, hc, he⟩ := h2
              obtain ⟨h1x, _⟩ := lookupReq_eraseReq_some hnd h1
              exact Or.inr ⟨req0, k, r2, h1x, hlo, hhi, hc, he⟩
          · -- retransmission of the head timeout
            have hsteq : (handle_timeouts rto now true (n + 1) st).st =
                (handle_timeouts rto now true n
                  ⟨{ timeout_at := now + r, tid := pt.tid } ::
                     heapErase st.pending_timeouts pt,
                   modifyReq st.outstanding_requests pt.tid
                     (fun q =>
                       { q with attempts_made := q.attempts_made + 1 })⟩).st := by
              rw [ht_retransmit rto now n st pt req r hpeek hexp hreq hrto]
            have heffs : (handle_timeouts rto now true (n + 1) st).effs =
                Effect.egress (Message.request req.method pt.tid req.attributes)
                    req.destination_addr ::
                  (handle_timeouts rto now true n
                    ⟨{ timeout_at := now + r, tid := pt.tid } ::
                       heapErase st.pending_timeouts pt,
                     modifyReq st.outstanding_requests pt.tid
                       (fun q =>
                         { q with attempts_made := q.attempts_made + 1 })⟩).effs := by
              rw [ht_retransmit rto now n st pt req r hpeek hexp hreq hrto]
            have hnd1 : (reqKeys (modifyReq st.outstanding_requests pt.tid
                (fun q =>
                  { q with attempts_made := q.attempts_made + 1 }))).Nodup := by
              rw [reqKeys_modifyReq]
              exact hnd
            rw [hsteq] at hpt
            rcases ih ⟨{ timeout_at := now + r, tid := pt.tid } ::
                heapErase st.pending_timeouts pt,
              modifyReq st.outstanding_requests pt.tid
                (fun q => { q with attempts_made := q.attempts_made + 1 })⟩
              hnd1 pt2 hpt with h2 | h2
            · rcases List.mem_cons.mp h2 with rfl | h3
              · -- pt2 is the freshly pushed timeout: scheduled at the entry's
                -- actual attempts_made
                refine Or.inr ⟨req, req.attempts_made, r, hreq, le_refl _,
                  ?_, hrto, rfl⟩
                rw [heffs, egressCountFor_cons_egress]
                have hcond : (Message.request req.method pt.tid
                    req.attributes).header.transaction_id =
                    ({ timeout_at := now + r, tid := pt.tid } :
                      PendingTimeout).tid := rfl
                rw [if_pos hcond]
                omega
              · exact Or.inl (heapErase_subset h3)
            · obtain ⟨req1, k, r2, h1, hlo, hhi, hc, he⟩ := h2
              by_cases htid : pt2.tid = pt.tid
              · rw [htid, lookupReq_modifyReq_self, hreq] at h1
                have h1x : { req with attempts_made := req.attempts_made + 1 } =
                    req1 := Option.some.inj h1
                have hatt1 : req1.attempts_made = req.attempts_made + 1 := by
                  rw [← h1x]
                refine Or.inr ⟨req, k, r2, by rw [htid]; exact hreq, ?_, ?_,
                  ?_, he⟩
                · omega
                · rw [heffs, egressCountFor_cons_egress, htid]
                  have hcond : (Message.request req.method pt.tid
                      req.attributes).header.transaction_id = pt.tid := rfl
                  rw [if_pos hcond]
                  rw [htid] at hhi
                  omega
                · rw [← h1x] at hc
                  exact hc
              · rw [lookupReq_modifyReq_ne htid] at h1
                refine Or.inr ⟨req1, k, r2, h1, hlo, ?_, hc, he⟩
                rw [heffs, egressCountFor_cons_egress]
                have hcond : ¬ (Message.request req.method pt.tid
                    req.attributes).header.transaction_id = pt2.tid :=
                  fun hh => htid hh.symm
                rw [if_neg hcond]
                omega
      · rw [ht_future rto now true n st pt hpeek hexp] at hpt
        exact Or.inl hpt


/-! ### C4: what one `handle_timeouts` call does to expired timeouts -/

/-- C4: given unique table keys (HashMap well-formedness), a `handle_timeouts`
call pops expired deadlines in ascending order, each ≤ `now`, and the claimed
processing happens: when the policy answers `None` for the expired head, its
entry is removed from the table and its sink is resolved with `Timeout`; when
it answers `Some rto`, the stored request is re-emitted verbatim on egress
(same tid, method, attributes, destination), `attempts_made` is incremented —
exactly one increment per re-emission of the tid, by the accounting conjunct —
and a `PendingTimeout` at `now + rto` under the same tid is pushed (found in
the final heap unless it expired and was popped later in the same call).
Moreover no timeout vanishes except by being popped; on normal completion
every expired timeout has been popped and none remains; every egress effect
is a verbatim retransmission of its entry; every sink resolution is a
`Timeout` of an entry absent afterwards; surviving entries keep
`destination_addr`, `method`, `attributes`, `start_time` and sink unchanged;
and every new pending timeout was scheduled at `now` plus a duration the
policy returned for its entry's actual attempts value — between the entry's
initial `attempts_made` and the initial value plus the number of
retransmissions of that tid. -/
theorem handle_timeouts_expiry_spec (rto : RtoPolicy) (now fuel : Nat)
    (st : ManagerState)
    (hnd : (reqKeys st.outstanding_requests).Nodup) :
    List.Chain' (fun a b => a ≤ b) (handle_timeouts rto now true fuel st).popped ∧
    (∀ d ∈ (handle_timeouts rto now true fuel st).popped, d ≤ now) ∧
    (∀ msg dest,
        Effect.egress msg dest ∈ (handle_timeouts rto now true fuel st).effs →
        ∃ req0,
          lookupReq st.outstanding_requests msg.header.transaction_id =
            some req0 ∧
          msg = Message.request req0.method msg.header.transaction_id
            req0.attributes ∧
          dest = req0.destination_addr) ∧
    (∀ s rr,
        Effect.resolveSink s rr ∈ (handle_timeouts rto now true fuel st).effs →
        rr = Except.error TransactionError.Timeout ∧
        ∃ tid req0, lookupReq st.outstanding_requests tid = some req0 ∧
          s = req0.response_sink ∧
          lookupReq (handle_timeouts rto now true fuel st).st.outstanding_requests tid = none) ∧
    (∀ tid req1,
        lookupReq (handle_timeouts rto now true fuel st).st.outstanding_requests tid = some req1 →
        ∃ req0, lookupReq st.outstanding_requests tid = some req0 ∧
          req1.destination_addr = req0.destination_addr ∧
          req1.method = req0.method ∧
          req1.attributes = req0.attributes ∧
          req1.start_time = req0.start_time ∧
          req1.response_sink = req0.response_sink ∧
          req1.attempts_made = req0.attempts_made +
            egressCountFor tid (handle_timeouts rto now true fuel st).effs) ∧
    (∀ pt2 ∈ (handle_timeouts rto now true fuel st).st.pending_timeouts,
        pt2 ∈ st.pending_timeouts ∨
        ∃ req0 k r, lookupReq st.outstanding_requests pt2.tid = some req0 ∧
          req0.attempts_made ≤ k ∧
          k < req0.attempts_made + egressCountFor pt2.tid (handle_timeouts rto now true fuel st).effs ∧
          rto.calculate_rto req0.destination_addr k req0.start_time =
            some r ∧
          pt2.timeout_at = now + r) ∧
    ((handle_timeouts rto now true fuel st).completed = true →
        ∀ pt2 ∈ (handle_timeouts rto now true fuel st).st.pending_timeouts, now < pt2.timeout_at) ∧
    (∀ x ∈ st.pending_timeouts,
        x ∈ (handle_timeouts rto now true fuel st).st.pending_timeouts ∨ x.timeout_at ∈ (handle_timeouts rto now true fuel st).popped) ∧
    ((handle_timeouts rto now true fuel st).completed = true →
        ∀ x ∈ st.pending_timeouts, x.timeout_at ≤ now →
          x.timeout_at ∈ (handle_timeouts rto now true fuel st).popped) ∧
    (∀ pt req, 0 < fuel →
        heapPeek st.pending_timeouts = some pt →
        pt.timeout_at ≤ now →
        lookupReq st.outstanding_requests pt.tid = some req →
        rto.calculate_rto req.destination_addr req.attempts_made
          req.start_time = none →
        Effect.resolveSink req.response_sink
            (Except.error TransactionError.Timeout) ∈ (handle_timeouts rto now true fuel st).effs ∧
        lookupReq (handle_timeouts rto now true fuel st).st.outstanding_requests pt.tid = none) ∧
    (∀ pt req r, 0 < fuel →
        heapPeek st.pending_timeouts = some pt →
        pt.timeout_at ≤ now →
        lookupReq st.outstanding_requests pt.tid = some req →
        rto.calculate_rto req.destination_addr req.attempts_made
          req.start_time = some r →
        Effect.egress (Message.request req.method pt.tid req.attributes)
            req.destination_addr ∈ (handle_timeouts rto now true fuel st).effs ∧
        1 ≤ egressCountFor pt.tid (handle_timeouts rto now true fuel st).effs ∧
        (({ timeout_at := now + r, tid := pt.tid } : PendingTimeout) ∈
            (handle_timeouts rto now true fuel st).st.pending_timeouts ∨ (now + r) ∈ (handle_timeouts rto now true fuel st).popped)) := by
  refine ⟨ht_popped_chain rto now true fuel st,
    ht_popped_le_now rto now true fuel st,
    (ht_sim rto now fuel st hnd).1,
    (ht_sim rto now fuel st hnd).2.1,
    (ht_sim rto now fuel st hnd).2.2.1,
    ht_push_bound rto now fuel st hnd,
    (ht_sim rto now fuel st hnd).2.2.2.2,
    ht_heap_conserve rto now true fuel st,
    ?_, ?_, ?_⟩
  · intro hc x hx hxle
    rcases ht_heap_conserve rto now true fuel st x hx with h2 | h2
    · have := ht_completed_future rto now true fuel st hc x h2
      omega
    · exact h2
  · intro pt req hf hpeek hexp hreq hrto
    obtain ⟨n, rfl⟩ : ∃ n, fuel = n + 1 := ⟨fuel - 1, by omega⟩
    have heffs : (handle_timeouts rto now true (n + 1) st).effs =
        Effect.resolveSink req.response_sink
            (Except.error TransactionError.Timeout) ::
          (handle_timeouts rto now true n
            ⟨heapErase st.pending_timeouts pt,
             eraseReq st.outstanding_requests pt.tid⟩).effs := by
      rw [ht_timeout rto now true n st pt req hpeek hexp hreq hrto]
    have hsteq : (handle_timeouts rto now true (n + 1) st).st =
        (handle_timeouts rto now true n
          ⟨heapErase st.pending_timeouts pt,
           eraseReq st.outstanding_requests pt.tid⟩).st := by
      rw [ht_timeout rto now true n st pt req hpeek hexp hreq hrto]
    constructor
    · rw [heffs]
      exact List.mem_cons_self _ _
    · rw [hsteq]
      exact ht_lookup_none rto now true n _ pt.tid
        (lookupReq_eraseReq_self hnd)
  · intro pt req r hf hpeek hexp hreq hrto
    obtain ⟨n, rfl⟩ : ∃ n, fuel = n + 1 := ⟨fuel - 1, by omega⟩
    have heffs : (handle_timeouts rto now true (n + 1) st).effs =
        Effect.egress (Message.request req.method pt.tid req.attributes)
            req.destination_addr ::
          (handle_timeouts rto now true n
            ⟨{ timeout_at := now + r, tid := pt.tid } ::
               heapErase st.pending_timeouts pt,
             modifyReq st.outstanding_requests pt.tid
               (fun q =>
                 { q with attempts_made := q.attempts_made + 1 })⟩).effs := by
      rw [ht_retransmit rto now n st pt req r hpeek hexp hreq hrto]
    have hsteq : (handle_timeouts rto now true (n + 1) st).st =
        (handle_timeouts rto now true n
          ⟨{ timeout_at := now + r, tid := pt.tid } ::
             heapErase st.pending_timeouts pt,
           modifyReq st.outstanding_requests pt.tid
             (fun q =>
               { q with attempts_made := q.attempts_made + 1 })⟩).st := by
      rw [ht_retransmit rto now n st pt req r hpeek hexp hreq hrto]
    have hpopeq : (handle_timeouts rto now true (n + 1) st).popped =
        pt.timeout_at ::
          (handle_timeouts rto now true n
            ⟨{ timeout_at := now + r, tid := pt.tid } ::
               heapErase st.pending_timeouts pt,
             modifyReq st.outstanding_requests pt.tid
               (fun q =>
                 { q with attempts_made := q.attempts_made + 1 })⟩).popped := by
      rw [ht_retransmit rto now n st pt req r hpeek hexp hreq hrto]
    refine ⟨?_, ?_, ?_⟩
    · rw [heffs]
      exact List.mem_cons_self _ _
    · rw [heffs, egressCountFor_cons_egress]
      have hcond : (Message.request req.method pt.tid
          req.attributes).header.transaction_id = pt.tid := rfl
      rw [if_pos hcond]
      omega
    · have hmem : ({ timeout_at := now + r, tid := pt.tid } : PendingTimeout) ∈
          ({ timeout_at := now + r, tid := pt.tid } ::
            heapErase st.pending_timeouts pt) := List.mem_cons_self _ _
      rcases ht_heap_conserve rto now true n
          ⟨{ timeout_at := now + r, tid := pt.tid } ::
             heapErase st.pending_timeouts pt,
           modifyReq st.outstanding_requests pt.tid
             (fun q => { q with attempts_made := q.attempts_made + 1 })⟩
          _ hmem with h2 | h2
      · refine Or.inl ?_
        rw [hsteq]
        exact h2
      · refine Or.inr ?_
        rw [hpopeq]
        exact List.mem_cons_of_mem _ h2

/-- C4 witness: the expiry specification instantiated at a concrete state —
one outstanding request (tid 7, attempt 1) whose timeout has expired under
`NoRetransmissionsConstTimeout`, which therefore resolves with `Timeout`. -/
theorem handle_timeouts_expiry_spec_witness :
    List.Chain' (fun a b => a ≤ b) (handle_timeouts (NoRetransmissionsConstTimeout 100) 10 true 2 ({ pending_timeouts := [{ timeout_at := 10, tid := 7 }], outstanding_requests := [(7, { destination_addr := 1, method := 42, attributes := [], response_sink := 0, attempts_made := 1, start_time := 0 })] } : ManagerState)).popped ∧
    (∀ d ∈ (handle_timeouts (NoRetransmissionsConstTimeout 100) 10 true 2 ({ pending_timeouts := [{ timeout_at := 10, tid := 7 }], outstanding_requests := [(7, { destination_addr := 1, method := 42, attributes := [], response_sink := 0, attempts_made := 1, start_time := 0 })] } : ManagerState)).popped, d ≤ 10) ∧
    (∀ msg dest,
        Effect.egress msg dest ∈ (handle_timeouts (NoRetransmissionsConstTimeout 100) 10 true 2 ({ pending_timeouts := [{ timeout_at := 10, tid := 7 }], outstanding_requests := [(7, { destination_addr := 1, method := 42, attributes := [], response_sink := 0, attempts_made := 1, start_time := 0 })] } : ManagerState)).effs →
        ∃ req0,
          lookupReq ({ pending_timeouts := [{ timeout_at := 10, tid := 7 }], outstanding_requests := [(7, { destination_addr := 1, method := 42, attributes := [], response_sink := 0, attempts_made := 1, start_time := 0 })] } : ManagerState).outstanding_requests msg.header.transaction_id =
            some req0 ∧
          msg = Message.request req0.method msg.header.transaction_id
            req0.attributes ∧
          dest = req0.destination_addr) ∧
    (∀ s rr,
        Effect.resolveSink s rr ∈ (handle_timeouts (NoRetransmissionsConstTimeout 100) 10 true 2 ({ pending_timeouts := [{ timeout_at := 10, tid := 7 }], outstanding_requests := [(7, { destination_addr := 1, method := 42, attributes := [], response_sink := 0, attempts_made := 1, start_time := 0 })] } : ManagerState)).effs →
        rr = Except.error TransactionError.Timeout ∧
        ∃ tid req0, lookupReq ({ pending_timeouts := [{ timeout_at := 10, tid := 7 }], outstanding_requests := [(7, { destination_addr := 1, method := 42, attributes := [], response_sink := 0, attempts_made := 1, start_time := 0 })] } : ManagerState).outstanding_requests tid = some req0 ∧
          s = req0.response_sink ∧
          lookupReq (handle_timeouts (NoRetransmissionsConstTimeout 100) 10 true 2 ({ pending_timeouts := [{ timeout_at := 10, tid := 7 }], outstanding_requests := [(7, { destination_addr := 1, method := 42, attributes := [], response_sink := 0, attempts_made := 1, start_time := 0 })] } : ManagerState)).st.outstanding_requests tid = none) ∧
    (∀ tid req1,
        lookupReq (handle_timeouts (NoRetransmissionsConstTimeout 100) 10 true 2 ({ pending_timeouts := [{ timeout_at := 10, tid := 7 }], outstanding_requests := [(7, { destination_addr := 1, method := 42, attributes := [], response_sink := 0, attempts_made := 1, start_time := 0 })] } : ManagerState)).st.outstanding_requests tid = some req1 →
        ∃ req0, lookupReq ({ pending_timeouts := [{ timeout_at := 10, tid := 7 }], outstanding_requests := [(7, { destination_addr := 1, method := 42, attributes := [], response_sink := 0, attempts_made := 1, start_time := 0 })] } : ManagerState).outstanding_requests tid = some req0 ∧
          req1.destination_addr = req0.destination_addr ∧
          req1.method = req0.method ∧
          req1.attributes = req0.attributes ∧
          req1.start_time = req0.start_time ∧
          req1.response_sink = req0.response_sink ∧
          req1.attempts_made = req0.attempts_made +
            egressCountFor tid (handle_timeouts (NoRetransmissionsConstTimeout 100) 10 true 2 ({ pending_timeouts := [{ timeout_at := 10, tid := 7 }], outstanding_requests := [(7, { destination_addr := 1, method := 42, attributes := [], response_sink := 0, attempts_made := 1, start_time := 0 })] } : ManagerState)).effs) ∧
    (∀ pt2 ∈ (handle_timeouts (NoRetransmissionsConstTimeout 100) 10 true 2 ({ pending_timeouts := [{ timeout_at := 10, tid := 7 }], outstanding_requests := [(7, { destination_addr := 1, method := 42, attributes := [], response_sink := 0, attempts_made := 1, start_time := 0 })] } : ManagerState)).st.pending_timeouts,
        pt2 ∈ ({ pending_timeouts := [{ timeout_at := 10, tid := 7 }], outstanding_requests := [(7, { destination_addr := 1, method := 42, attributes := [], response_sink := 0, attempts_made := 1, start_time := 0 })] } : ManagerState).pending_timeouts ∨
        ∃ req0 k r, lookupReq ({ pending_timeouts := [{ timeout_at := 10, tid := 7 }], outstanding_requests := [(7, { destination_addr := 1, method := 42, attributes := [], response_sink := 0, attempts_made := 1, start_time := 0 })] } : ManagerState).outstanding_requests pt2.tid = some req0 ∧
          req0.attempts_made ≤ k ∧
          k < req0.attempts_made + egressCountFor pt2.tid (handle_timeouts (NoRetransmissionsConstTimeout 100) 10 true 2 ({ pending_timeouts := [{ timeout_at := 10, tid := 7 }], outstanding_requests := [(7, { destination_addr := 1, method := 42, attributes := [], response_sink := 0, attempts_made := 1, start_time := 0 })] } : ManagerState)).effs ∧
          (NoRetransmissionsConstTimeout 100).calculate_rto req0.destination_addr k req0.start_time =
            some r ∧
          pt2.timeout_at = 10 + r) ∧
    ((handle_timeouts (NoRetransmissionsConstTimeout 100) 10 true 2 ({ pending_timeouts := [{ timeout_at := 10, tid := 7 }], outstanding_requests := [(7, { destination_addr := 1, method := 42, attributes := [], response_sink := 0, attempts_made := 1, start_time := 0 })] } : ManagerState)).completed = true →
        ∀ pt2 ∈ (handle_timeouts (NoRetransmissionsConstTimeout 100) 10 true 2 ({ pending_timeouts := [{ timeout_at := 10, tid := 7 }], outstanding_requests := [(7, { destination_addr := 1, method := 42, attributes := [], response_sink := 0, attempts_made := 1, start_time := 0 })] } : ManagerState)).st.pending_timeouts, 10 < pt2.timeout_at) ∧
    (∀ x ∈ ({ pending_timeouts := [{ timeout_at := 10, tid := 7 }], outstanding_requests := [(7, { destination_addr := 1, method := 42, attributes := [], response_sink := 0, attempts_made := 1, start_time := 0 })] } : ManagerState).pending_timeouts,
        x ∈ (handle_timeouts (NoRetransmissionsConstTimeout 100) 10 true 2 ({ pending_timeouts := [{ timeout_at := 10, tid := 7 }], outstanding_requests := [(7, { destination_addr := 1, method := 42, attributes := [], response_sink := 0, attempts_made := 1, start_time := 0 })] } : ManagerState)).st.pending_timeouts ∨ x.timeout_at ∈ (handle_timeouts (NoRetransmissionsConstTimeout 100) 10 true 2 ({ pending_timeouts := [{ timeout_at := 10, tid := 7 }], outstanding_requests := [(7, { destination_addr := 1, method := 42, attributes := [], response_sink := 0, attempts_made := 1, start_time := 0 })] } : ManagerState)).popped) ∧
    ((handle_timeouts (NoRetransmissionsConstTimeout 100) 10 true 2 ({ pending_timeouts := [{ timeout_at := 10, tid := 7 }], outstanding_requests := [(7, { destination_addr := 1, method := 42, attributes := [], response_sink := 0, attempts_made := 1, start_time := 0 })] } : ManagerState)).completed = true →
        ∀ x ∈ ({ pending_timeouts := [{ timeout_at := 10, tid := 7 }], outstanding_requests := [(7, { destination_addr := 1, method := 42, attributes := [], response_sink := 0, attempts_made := 1, start_time := 0 })] } : ManagerState).pending_timeouts, x.timeout_at ≤ 10 →
          x.timeout_at ∈ (handle_timeouts (NoRetransmissionsConstTimeout 100) 10 true 2 ({ pending_timeouts := [{ timeout_at := 10, tid := 7 }], outstanding_requests := [(7, { destination_addr := 1, method := 42, attributes := [], response_sink := 0, attempts_made := 1, start_time := 0 })] } : ManagerState)).popped) ∧
    (∀ pt req, 0 < 2 →
        heapPeek ({ pending_timeouts := [{ timeout_at := 10, tid := 7 }], outstanding_requests := [(7, { destination_addr := 1, method := 42, attributes := [], response_sink := 0, attempts_made := 1, start_time := 0 })] } : ManagerState).pending_timeouts = some pt →
        pt.timeout_at ≤ 10 →
        lookupReq ({ pending_timeouts := [{ timeout_at := 10, tid := 7 }], outstanding_requests := [(7, { destination_addr := 1, method := 42, attributes := [], response_sink := 0, attempts_made := 1, start_time := 0 })] } : ManagerState).outstanding_requests pt.tid = some req →
        (NoRetransmissionsConstTimeout 100).calculate_rto req.destination_addr req.attempts_made
          req.start_time = none →
        Effect.resolveSink req.response_sink
            (Except.error TransactionError.Timeout) ∈ (handle_timeouts (NoRetransmissionsConstTimeout 100) 10 true 2 ({ pending_timeouts := [{ timeout_at := 10, tid := 7 }], outstanding_requests := [(7, { destination_addr := 1, method := 42, attributes := [], response_sink := 0, attempts_made := 1, start_time := 0 })] } : ManagerState)).effs ∧
        lookupReq (handle_timeouts (NoRetransmissionsConstTimeout 100) 10 true 2 ({ pending_timeouts := [{ timeout_at := 10, tid := 7 }], outstanding_requests := [(7, { destination_addr := 1, method := 42, attributes := [], response_sink := 0, attempts_made := 1, start_time := 0 })] } : ManagerState)).st.outstanding_requests pt.tid = none) ∧
    (∀ pt req r, 0 < 2 →
        heapPeek ({ pending_timeouts := [{ timeout_at := 10, tid := 7 }], outstanding_requests := [(7, { destination_addr := 1, method := 42, attributes := [], response_sink := 0, attempts_made := 1, start_time := 0 })] } : ManagerState).pending_timeouts = some pt →
        pt.timeout_at ≤ 10 →
        lookupReq ({ pending_timeouts := [{ timeout_at := 10, tid := 7 }], outstanding_requests := [(7, { destination_addr := 1, method := 42, attributes := [], response_sink := 0, attempts_made := 1, start_time := 0 })] } : ManagerState).outstanding_requests pt.tid = some req →
        (NoRetransmissionsConstTimeout 100).calculate_rto req.destination_addr req.attempts_made
          req.start_time = some r →
        Effect.egress (Message.request req.method pt.tid req.attributes)
            req.destination_addr ∈ (handle_timeouts (NoRetransmissionsConstTimeout 100) 10 true 2 ({ pending_timeouts := [{ timeout_at := 10, tid := 7 }], outstanding_requests := [(7, { destination_addr := 1, method := 42, attributes := [], response_sink := 0, attempts_made := 1, start_time := 0 })] } : ManagerState)).effs ∧
        1 ≤ egressCountFor pt.tid (handle_timeouts (NoRetransmissionsConstTimeout 100) 10 true 2 ({ pending_timeouts := [{ timeout_at := 10, tid := 7 }], outstanding_requests := [(7, { destination_addr := 1, method := 42, attributes := [], response_sink := 0, attempts_made := 1, start_time := 0 })] } : ManagerState)).effs ∧
        (({ timeout_at := 10 + r, tid := pt.tid } : PendingTimeout) ∈
            (handle_timeouts (NoRetransmissionsConstTimeout 100) 10 true 2 ({ pending_timeouts := [{ timeout_at := 10, tid := 7 }], outstanding_requests := [(7, { destination_addr := 1, method := 42, attributes := [], response_sink := 0, attempts_made := 1, start_time := 0 })] } : ManagerState)).st.pending_timeouts ∨ (10 + r) ∈ (handle_timeouts (NoRetransmissionsConstTimeout 100) 10 true 2 ({ pending_timeouts := [{ timeout_at := 10, tid := 7 }], outstanding_requests := [(7, { destination_addr := 1, method := 42, attributes := [], response_sink := 0, attempts_made := 1, start_time := 0 })] } : ManagerState)).popped)) :=
  handle_timeouts_expiry_spec (NoRetransmissionsConstTimeout 100) 10 2
    { pending_timeouts := [{ timeout_at := 10, tid := 7 }]
      outstanding_requests := [(7,
        { destination_addr := 1, method := 42, attributes := [],
          response_sink := 0, attempts_made := 1, start_time := 0 })] }
    (by decide)

end Mstun
